import Mathlib

/-!
Verification of the testsmellRank core pipeline.

This file gives a shallow embedding, in Lean 4, of the algorithmic core of the
repository (backend/app/services/git_metrics.py and
backend/app/services/smell_detection.py) and proves, or refutes, the frozen
specification claims about it.

Conventions of the embedding:
* Python strings are modelled as `List Char`; `str.lower` is `Char.toLower`
  applied characterwise (faithful on the ASCII paths and messages involved).
* Python dicts keyed by strings are modelled as association lists in
  insertion order (CPython dicts preserve insertion order).
* Python floats are modelled as `ℚ` where the code only forms ratios of
  integers, and as `ℝ` where a square root appears (Spearman correlation).
* I/O boundaries (running git, globbing and parsing files) are modelled as
  inputs: the commit list and the parsed per-file syntax trees are parameters
  of the functions that consume them.
-/

namespace TestSmellRank

/-- Turn a Lean string literal into the `List Char` representation used for
Python strings throughout this development. -/
def str (s : String) : List Char := s.data

/-- Characterwise `str.lower` (Python's `lower()` on the ASCII data involved). -/
def pyLower (l : List Char) : List Char := l.map Char.toLower

/-- `x.replace('\\', '/')` on a character list. -/
def slashify (l : List Char) : List Char := l.map (fun c => if c = ('\\') then ('/') else c)

/-- Contiguous-substring test: Python's `kw in msg` for strings. -/
def isSubstring (kw : List Char) : List Char → Bool
  | [] => kw.isEmpty
  | c :: rest => kw.isPrefixOf (c :: rest) || isSubstring kw rest

/-- Python's `s.strip(c)`: drop every leading and trailing occurrence of `c`. -/
def pyStrip (c : Char) (l : List Char) : List Char :=
  ((l.dropWhile (· = c)).reverse.dropWhile (· = c)).reverse

/- =====================================================
   git_metrics.py — STEP 1: commit classification
   ===================================================== -/

/-- `FAULT_KEYWORDS` from git_metrics.py. -/
def FAULT_KEYWORDS : List (List Char) :=
  [str ("bug"), str ("fix"), str ("error"), str ("defect"), str ("issue"), str ("fault"),
   str ("crash"), str ("patch"), str ("repair"), str ("correct"), str ("resolve")]

/-- `_is_faulty_commit(message)`: lower-case the message and test each keyword
with Python's substring operator `in`. -/
def is_faulty_commit (message : List Char) : Bool :=
  FAULT_KEYWORDS.any (fun kw => isSubstring kw (pyLower message))

/- =====================================================
   git_metrics.py — STEP 2: file classification and path matching
   ===================================================== -/

/-- `is_test_file(filename)`: lower-case, unify separators, then look for the
five test-path patterns. -/
def is_test_file (filename : List Char) : Bool :=
  let f := slashify (pyLower filename)
  isSubstring (str ("/test_")) f ||
  isSubstring (str ("_test.")) f ||
  isSubstring (str ("/tests/")) f ||
  (str ("test_")).isPrefixOf f ||
  (str ("tests/")).isPrefixOf f

/-- `is_production_file(filename)`: a lower-cased `.py` path that is not a test
file, not an `__init__.py`, and does not contain `setup.py`. -/
def is_production_file (filename : List Char) : Bool :=
  let f := pyLower filename
  (str (".py")).isSuffixOf f &&
  !(is_test_file f) &&
  !((str ("__init__.py")).isSuffixOf f) &&
  !(isSubstring (str ("setup.py")) f)

/-- `_normalize(path)`: `path.replace('\\', '/').lower().strip('/')`. -/
def normalize (path : List Char) : List Char :=
  pyStrip ('/') (pyLower (slashify path))

/-- `a.split('/')[-1]`: the final path component (everything after the last
slash; the whole string when no slash occurs). -/
def lastComponent (l : List Char) : List Char :=
  (l.reverse.takeWhile (· ≠ ('/'))).reverse

/-- `paths_match(smell_path, git_path)` from git_metrics.py. -/
def paths_match (smell_path git_path : List Char) : Bool :=
  let a := normalize smell_path
  let b := normalize git_path
  a = b ||
  b.isSuffixOf a || a.isSuffixOf b ||
  (lastComponent a = lastComponent b && (str ("test")).isPrefixOf (lastComponent a))

/- =====================================================
   git_metrics.py — data model
   ===================================================== -/

/-- Per-file diff statistics of one commit (`--numstat` line). -/
structure FileChange where
  additions : ℕ
  deletions : ℕ
deriving DecidableEq

/-- A mined commit record.  `extract_git_history` performs the git I/O; the
embedding takes its output — the commit list — as an input.  `is_faulty` is set
by the miner to `is_faulty_commit message`. -/
structure Commit where
  hash : List Char
  message : List Char
  timestamp : List Char
  is_faulty : Bool
  files_changed : List (List Char × FileChange)
deriving DecidableEq

/-- Per-file aggregate statistics (`_build_file_metrics` values). -/
structure FileMetrics where
  total_changes : ℕ
  total_churn : ℕ
  faulty_changes : ℕ
  faulty_churn : ℕ
deriving DecidableEq

/-- The zero record a `defaultdict` entry starts from. -/
def FileMetrics.zero : FileMetrics := ⟨0, 0, 0, 0⟩

/-- Add one touch of a file by a commit with the given churn and faultiness. -/
def FileMetrics.bump (isFaulty : Bool) (churn : ℕ) (m : FileMetrics) : FileMetrics :=
  { total_changes := m.total_changes + 1
    total_churn := m.total_churn + churn
    faulty_changes := m.faulty_changes + (if isFaulty then 1 else 0)
    faulty_churn := m.faulty_churn + (if isFaulty then churn else 0) }

/-- Update an insertion-ordered association list at `k` with `f`, starting from
`dflt` when `k` is absent (a Python `defaultdict` access). -/
def updateAssoc (dflt : β) (f : β → β) (k : List Char) :
    List (List Char × β) → List (List Char × β)
  | [] => [(k, f dflt)]
  | (k2, v) :: rest =>
      if k2 = k then (k2, f v) :: rest else (k2, v) :: updateAssoc dflt f k rest

/-- Association-list lookup (Python `dict.get`). -/
def lookupAssoc (m : List (List Char × β)) (k : List Char) : Option β :=
  (m.find? (fun p => p.1 = k)).map (·.2)

/- =====================================================
   git_metrics.py — STEP 3: `_build_file_metrics`
   ===================================================== -/

/-- Fold the commit list into per-file metrics, in commit order and, within a
commit, in `files_changed` order. -/
def build_file_metrics (commits : List Commit) : List (List Char × FileMetrics) :=
  commits.foldl
    (fun m c =>
      c.files_changed.foldl
        (fun m2 fc =>
          updateAssoc FileMetrics.zero
            (FileMetrics.bump c.is_faulty (fc.2.additions + fc.2.deletions)) fc.1 m2)
        m)
    []

/- =====================================================
   git_metrics.py — STEP 4: `_build_cochange_map`
   ===================================================== -/

/-- Union a list of keys into a set modelled as a duplicate-free list (Python
`set.add` for each element; order of the model list is insertion order). -/
def unionInto (s : List (List Char)) (new : List (List Char)) : List (List Char) :=
  new.foldl (fun acc f => if f ∈ acc then acc else acc ++ [f]) s

/-- One commit's contribution to the co-change map: for every changed test
file, find the first canonical test file matching it and union the commit's
changed production files into that entry. -/
def cochangeStep (test_files : List (List Char)) (m : List (List Char × List (List Char)))
    (c : Commit) : List (List Char × List (List Char)) :=
  let changed := c.files_changed.map (·.1)
  let changed_test := changed.filter (fun f => is_test_file f)
  let changed_prod := changed.filter (fun f => is_production_file f)
  if changed_test.isEmpty || changed_prod.isEmpty then m
  else
    changed_test.foldl
      (fun m2 tf =>
        match test_files.find? (fun canonical => paths_match canonical tf) with
        | some canonical => updateAssoc [] (fun s => unionInto s changed_prod) canonical m2
        | none => m2)
      m

/-- `_build_cochange_map(test_files, commits)`. -/
def build_cochange_map (test_files : List (List Char)) (commits : List Commit) :
    List (List Char × List (List Char)) :=
  commits.foldl (cochangeStep test_files) []

/- =====================================================
   git_metrics.py — STEP 5: `_build_combined_vectors`
   ===================================================== -/

/-- The four combined per-test-file signals (equations 1–4 of the paper). -/
structure CombinedVector where
  chg_freq : ℚ
  chg_ext : ℚ
  fault_freq : ℚ
  fault_ext : ℚ
deriving DecidableEq

/-- The production-side population denominator:
`sum(total_changes for production files) or 1` — a zero sum is silently
replaced by `1` by Python's `or`. -/
def prodTotalDenom (file_metrics : List (List Char × FileMetrics)) : ℕ :=
  let s := ((file_metrics.filter (fun p => is_production_file p.1)).map
    (fun p => p.2.total_changes)).sum
  if s = 0 then 1 else s

/-- The test-side population denominator, with the same `or 1` fallback. -/
def testTotalDenom (file_metrics : List (List Char × FileMetrics)) : ℕ :=
  let s := ((file_metrics.filter (fun p => is_test_file p.1)).map
    (fun p => p.2.total_changes)).sum
  if s = 0 then 1 else s

/-- `file_metrics.get(f, {})` followed by the tolerant-path fallback loop; a
still-missing entry contributes zeros via `dict.get(key, 0)`. -/
def metricsFor (file_metrics : List (List Char × FileMetrics)) (f : List Char) : FileMetrics :=
  match lookupAssoc file_metrics f with
  | some m => m
  | none =>
      match file_metrics.find? (fun p => paths_match f p.1) with
      | some p => p.2
      | none => FileMetrics.zero

/-- `_build_combined_vectors(test_files, file_metrics, cochange_map,
total_commits)`; the `total_commits` parameter is accepted but unused, exactly
as in the source. -/
def build_combined_vectors (test_files : List (List Char))
    (file_metrics : List (List Char × FileMetrics))
    (cochange_map : List (List Char × List (List Char)))
    (total_commits : ℕ) : List (List Char × CombinedVector) :=
  let prod_total : ℚ := (prodTotalDenom file_metrics : ℚ)
  let test_total : ℚ := (testTotalDenom file_metrics : ℚ)
  test_files.map (fun tf =>
    let tm := metricsFor file_metrics tf
    let prod_files := (lookupAssoc cochange_map tf).getD []
    let pc : ℚ := ((prod_files.map (fun pf => (metricsFor file_metrics pf).total_changes)).sum : ℕ)
    let pch : ℚ := ((prod_files.map (fun pf => (metricsFor file_metrics pf).total_churn)).sum : ℕ)
    let pfc : ℚ := ((prod_files.map (fun pf => (metricsFor file_metrics pf).faulty_changes)).sum : ℕ)
    let pfch : ℚ := ((prod_files.map (fun pf => (metricsFor file_metrics pf).faulty_churn)).sum : ℕ)
    (tf,
      { chg_freq := pc / prod_total + (tm.total_changes : ℚ) / test_total
        chg_ext := pch / prod_total + (tm.total_churn : ℚ) / test_total
        fault_freq := pfc / prod_total + (tm.faulty_changes : ℚ) / test_total
        fault_ext := pfch / prod_total + (tm.faulty_churn : ℚ) / test_total }))

/- =====================================================
   git_metrics.py — STEP 6: `_spearman`
   ===================================================== -/

/-- `arr.std() == 0` for a numpy array of the values of `l`: true exactly when
every element equals the first (an empty array gives `nan`, not `0`, in numpy;
the choice made here for `[]` is immaterial because `_spearman` also returns
the degenerate answer for every population smaller than 3). -/
def isConstantQ : List ℚ → Bool
  | [] => true
  | x :: xs => xs.all (fun y => decide (y = x))

/-- The fractional (average) rank of value `v` within list `l`, as assigned by
`scipy.stats.rankdata(method := average)`, which `spearmanr` ranks with:
the count of strictly smaller entries plus half of `(ties + 1)`. -/
def rankOf (l : List ℚ) (v : ℚ) : ℚ :=
  ((l.countP (fun x => decide (x < v)) : ℚ)) +
    (((l.countP (fun x => decide (x = v)) : ℚ)) + 1) / 2

/-- The rank vector of a list (scipy's average-rank transform). -/
def ranks (l : List ℚ) : List ℚ := l.map (rankOf l)

/-- Arithmetic mean of a rational list (`0` for the empty list). -/
def lmean (l : List ℚ) : ℚ := l.sum / l.length

/-- Deviation of the `i`-th element from the mean. -/
def cdev (l : List ℚ) (i : ℕ) : ℚ := l.getD i 0 - lmean l

/-- Sum of products of deviations (the covariance numerator). -/
def covSum (a b : List ℚ) : ℚ :=
  ∑ i ∈ Finset.range a.length, cdev a i * cdev b i

/-- Sum of squared deviations (the variance numerator). -/
def varSum (a : List ℚ) : ℚ :=
  ∑ i ∈ Finset.range a.length, (cdev a i) ^ 2

/-- Pearson product-moment correlation of two rational lists, valued in `ℝ`
(scipy computes `spearmanr` as the Pearson correlation of the rank vectors). -/
noncomputable def pearson (a b : List ℚ) : ℝ :=
  ((covSum a b : ℚ) : ℝ) / Real.sqrt (((varSum a : ℚ) : ℝ) * ((varSum b : ℚ) : ℝ))

/-- Density of Student's t-distribution with `df` degrees of freedom. -/
noncomputable def studentPDF (df x : ℝ) : ℝ :=
  (Real.Gamma ((df + 1) / 2) / (Real.sqrt (df * Real.pi) * Real.Gamma (df / 2))) *
    Real.rpow (1 + x ^ 2 / df) (-((df + 1) / 2))

/-- Two-sided tail probability of Student's t-distribution beyond `|t|`. -/
noncomputable def tTwoSidedP (df t : ℝ) : ℝ :=
  ∫ x in Set.Ici |t|, 2 * studentPDF df x

/-- The t-statistic scipy derives from a correlation coefficient over a
population of size `n`. -/
noncomputable def tStatistic (r : ℝ) (n : ℕ) : ℝ :=
  r * Real.sqrt (((n : ℝ) - 2) / (1 - r ^ 2))

/-- The p-value `scipy.stats.spearmanr` reports in the non-degenerate case:
the two-sided Student-t tail of the t-transformed rank correlation with
`n - 2` degrees of freedom.  No claim constrains this value; it is modelled
for completeness of the `_spearman` return shape. -/
noncomputable def spearman_p (x y : List ℚ) : ℝ :=
  tTwoSidedP ((x.length : ℝ) - 2) (tStatistic (pearson (ranks x) (ranks y)) x.length)

/-- `_spearman(x, y)` from git_metrics.py: the degenerate guards (zero standard
deviation of either input, or fewer than 3 points) return `(0.0, 1.0)` before
scipy is consulted; otherwise scipy's Spearman rho and p are returned. -/
noncomputable def spearman (x y : List ℚ) : ℝ × ℝ :=
  if isConstantQ x || isConstantQ y then (0, 1)
  else if x.length < 3 then (0, 1)
  else (pearson (ranks x) (ranks y), spearman_p x y)

/- =====================================================
   Python `round(x, d)` — round-half-even on the decimal idealization
   ===================================================== -/

/-- Round a rational to the nearest integer, ties to even (Python's `round`). -/
def qRoundHalfEven (x : ℚ) : ℤ :=
  let n := ⌊x⌋
  let f := x - n
  if f < 1 / 2 then n else if 1 / 2 < f then n + 1 else if Even n then n else n + 1

/-- `round(x, d)` for a rational value. -/
def pyRoundQ (d : ℕ) (x : ℚ) : ℚ := (qRoundHalfEven (x * 10 ^ d) : ℚ) / 10 ^ d

open Classical in
/-- Round a real to the nearest integer, ties to even. -/
noncomputable def rRoundHalfEven (x : ℝ) : ℤ :=
  let n := ⌊x⌋
  let f := x - n
  if f < 1 / 2 then n else if 1 / 2 < f then n + 1 else if Even n then n else n + 1

/-- `round(x, d)` for a real value (the decimal idealization of Python's
float rounding). -/
noncomputable def pyRound (d : ℕ) (x : ℝ) : ℝ := (rRoundHalfEven (x * 10 ^ d) : ℝ) / 10 ^ d

/- =====================================================
   git_metrics.py — STEP 6: `calculate_spearman_metrics`
   ===================================================== -/

/-- `SMELL_ABBREVIATIONS` from git_metrics.py. -/
def SMELL_ABBREVIATIONS : List (List Char × List Char) :=
  [(str ("Conditional Test Logic"), str ("CTL")),
   (str ("Assertion Roulette"), str ("AR")),
   (str ("Duplicate Assert"), str ("DA")),
   (str ("Magic Number Test"), str ("MNT")),
   (str ("Obscure In-Line Setup"), str ("OS")),
   (str ("Redundant Assertion"), str ("RA")),
   (str ("Exception Handling"), str ("EH")),
   (str ("Constructor Initialization"), str ("CI")),
   (str ("Suboptimal Assert"), str ("SA")),
   (str ("Test Maverick"), str ("TM")),
   (str ("Redundant Print"), str ("RP")),
   (str ("General Fixture"), str ("GF")),
   (str ("Sleepy Test"), str ("ST")),
   (str ("Empty Test"), str ("ET")),
   (str ("Lack of Cohesion of Test Cases"), str ("LCTC"))]

/-- Characterwise `str.upper()`. -/
def pyUpper (l : List Char) : List Char := l.map Char.toUpper

/-- `SMELL_ABBREVIATIONS.get(smell_type, smell_type[:4].upper())`. -/
def abbrOf (t : List Char) : List Char :=
  (lookupAssoc SMELL_ABBREVIATIONS t).getD (pyUpper (t.take 4))

/-- A detector-emitted smell instance after the caller attached the `file`
key (`{'type', 'line', ...}` plus `'file'`). -/
structure SmellInst where
  type : List Char
  file : List Char
  line : ℕ
deriving DecidableEq

/-- Remove duplicates keeping first occurrences — the key order of a dict (or
the membership of a Python set) built by repeated insertion. -/
def dedupKeepFirst (l : List (List Char)) : List (List Char) :=
  l.foldl (fun acc f => if f ∈ acc then acc else acc ++ [f]) []

/-- The distinct smell types in first-occurrence order: the key order of the
`smells_by_type` defaultdict. -/
def distinctTypes (instances : List SmellInst) : List (List Char) :=
  dedupKeepFirst (instances.map (·.type))

/-- `set(inst['file'] for inst in instances-of-type-t)` as a duplicate-free
list. -/
def smellFilesOf (instances : List SmellInst) (t : List Char) : List (List Char) :=
  dedupKeepFirst ((instances.filter (fun i => i.type = t)).map (·.file))

/-- The binary presence vector of smell type `t` over the ordered test-file
population (tolerant path matching against the smelly files). -/
def presenceVec (instances : List SmellInst) (all_test_files : List (List Char))
    (t : List Char) : List ℚ :=
  all_test_files.map (fun tf =>
    if (smellFilesOf instances t).any (fun sf => paths_match tf sf) then (1 : ℚ) else 0)

/-- One combined-signal column over the ordered test-file population:
`combined_vectors.get(tf, {}).get(field, 0.0)`. -/
def signalCol (vectors : List (List Char × CombinedVector))
    (all_test_files : List (List Char)) (sel : CombinedVector → ℚ) : List ℚ :=
  all_test_files.map (fun tf => ((lookupAssoc vectors tf).map sel).getD 0)

/-- The per-smell-type result record built by `calculate_spearman_metrics`
(a dict in the source; the human-readable `print` output is not modelled). -/
structure SmellMetrics where
  smell_type : List Char
  abbreviation : List Char
  change_frequency_rho : ℝ
  change_extent_rho : ℝ
  fault_frequency_rho : ℝ
  fault_extent_rho : ℝ
  p_cf : ℝ
  p_ce : ℝ
  p_ff : ℝ
  p_fe : ℝ
  sig_cf : Bool
  sig_ce : Bool
  sig_ff : Bool
  sig_fe : Bool
  cp_score : ℝ
  fp_score : ℝ
  prioritization_score : ℝ
  instance_count : ℕ
  affected_test_files : ℕ
  files_with_smell : List (List Char)
  data_rank : Option ℕ := none

open Classical in
/-- The record `calculate_spearman_metrics` stores for one smell type. -/
noncomputable def mkSmellMetrics (instances : List SmellInst)
    (vectors : List (List Char × CombinedVector)) (all_test_files : List (List Char))
    (t : List Char) : SmellMetrics :=
  let insts := instances.filter (fun i => i.type = t)
  let sfiles := smellFilesOf instances t
  let presence := presenceVec instances all_test_files t
  let rcf := spearman presence (signalCol vectors all_test_files (fun v => v.chg_freq))
  let rce := spearman presence (signalCol vectors all_test_files (fun v => v.chg_ext))
  let rff := spearman presence (signalCol vectors all_test_files (fun v => v.fault_freq))
  let rfe := spearman presence (signalCol vectors all_test_files (fun v => v.fault_ext))
  let cp := rcf.1 + rce.1
  let fp := rff.1 + rfe.1
  let ps := (cp + fp) / 2
  { smell_type := t
    abbreviation := abbrOf t
    change_frequency_rho := pyRound 4 rcf.1
    change_extent_rho := pyRound 4 rce.1
    fault_frequency_rho := pyRound 4 rff.1
    fault_extent_rho := pyRound 4 rfe.1
    p_cf := pyRound 4 rcf.2
    p_ce := pyRound 4 rce.2
    p_ff := pyRound 4 rff.2
    p_fe := pyRound 4 rfe.2
    sig_cf := decide (rcf.2 < 0.05)
    sig_ce := decide (rce.2 < 0.05)
    sig_ff := decide (rff.2 < 0.05)
    sig_fe := decide (rfe.2 < 0.05)
    cp_score := pyRound 4 cp
    fp_score := pyRound 4 fp
    prioritization_score := pyRound 4 ps
    instance_count := insts.length
    affected_test_files := sfiles.length
    files_with_smell := sfiles }

/-- `calculate_spearman_metrics(smell_instances, combined_vectors,
all_test_files)`: one record per smell type, keyed in first-occurrence
order. -/
noncomputable def calculate_spearman_metrics (instances : List SmellInst)
    (vectors : List (List Char × CombinedVector)) (all_test_files : List (List Char)) :
    List (List Char × SmellMetrics) :=
  (distinctTypes instances).map (fun t => (t, mkSmellMetrics instances vectors all_test_files t))

/- =====================================================
   git_metrics.py — STEP 7: `rank_smells`
   ===================================================== -/

open Classical in
/-- Stable descending insertion by `prioritization_score`: an element is
placed before the first entry whose score it reaches, so earlier input wins
ties.  (Python's `sorted(..., reverse := True)` is a stable sort; any stable
sort computes the same list, and stable insertion sort is used here.) -/
noncomputable def insertByPS (x : SmellMetrics) : List SmellMetrics → List SmellMetrics
  | [] => [x]
  | y :: ys =>
      if y.prioritization_score ≤ x.prioritization_score then x :: y :: ys
      else y :: insertByPS x ys

/-- Stable sort by `prioritization_score` descending. -/
noncomputable def sortByPSDesc : List SmellMetrics → List SmellMetrics
  | [] => []
  | x :: xs => insertByPS x (sortByPSDesc xs)

/-- `for i, entry in enumerate(ranked, start := 1): entry['data_rank'] = i`. -/
def assignRanks : ℕ → List SmellMetrics → List SmellMetrics
  | _, [] => []
  | i, e :: es => { e with data_rank := some i } :: assignRanks (i + 1) es

/-- `rank_smells(metrics)`: sort the records by Prioritization Score
descending and assign 1-based ranks. -/
noncomputable def rank_smells (metricsValues : List SmellMetrics) : List SmellMetrics :=
  assignRanks 1 (sortByPSDesc metricsValues)

/- =====================================================
   git_metrics.py — main entry point
   ===================================================== -/

/-- The `statistics` payload of a successful analysis. -/
structure Statistics where
  total_commits : ℕ
  faulty_commits : ℕ
  fault_commit_pct : ℚ
  total_test_files : ℕ
  total_prod_files : ℕ
  smell_types_analyzed : ℕ
  total_smell_instances : ℕ

/-- The dict returned by `analyze_project_with_git` (and stored by the caller
in the `git_metrics` field): either an error/note payload or a full ranked
result.  Absent dict keys are `none`. -/
structure GitResult where
  error : Option (List Char) := none
  metrics : List (List Char × SmellMetrics) := []
  ranked_smells : Option (List SmellMetrics) := none
  statistics : Option Statistics := none
  note : Option (List Char) := none

/-- Python string `<` (code-point lexicographic). -/
def charListLt : List Char → List Char → Bool
  | [], [] => false
  | [], _ :: _ => true
  | _ :: _, [] => false
  | a :: as2, b :: bs => if a = b then charListLt as2 bs else decide (a.toNat < b.toNat)

/-- Insert into an ascending list (for `sorted(...)` over strings). -/
def insertStrAsc (x : List Char) : List (List Char) → List (List Char)
  | [] => [x]
  | y :: ys => if charListLt x y then x :: y :: ys else y :: insertStrAsc x ys

/-- `sorted(...)` over strings, ascending. -/
def sortStrAsc : List (List Char) → List (List Char)
  | [] => []
  | x :: xs => insertStrAsc x (sortStrAsc xs)

/-- `analyze_project_with_git(project_path, smell_instances)`.  The git
history extraction is I/O; the embedding receives the extracted commit list in
place of the repository path.  The two declared parameters of the Python
function are `project_path` and `smell_instances` — nothing else. -/
noncomputable def analyze_project_with_git (commits : List Commit)
    (smell_instances : List SmellInst) : GitResult :=
  if commits.isEmpty then
    { error := some (str ("No git history found or not a git repository.")), metrics := [] }
  else
    let total_commits := commits.length
    let faulty := (commits.filter (fun c => c.is_faulty)).length
    let file_metrics := build_file_metrics commits
    let all_git_test_files := sortStrAsc ((file_metrics.map (·.1)).filter (fun f => is_test_file f))
    let all_git_prod_files := sortStrAsc ((file_metrics.map (·.1)).filter (fun f => is_production_file f))
    let smell_test_files := dedupKeepFirst (smell_instances.map (·.file))
    let all_test_files := sortStrAsc (dedupKeepFirst (smell_test_files ++ all_git_test_files))
    if all_test_files.isEmpty then
      { error := some (str ("No test files found in git history or smell instances.")), metrics := [] }
    else
      let cochange := build_cochange_map all_test_files commits
      let vectors := build_combined_vectors all_test_files file_metrics cochange total_commits
      let metrics := calculate_spearman_metrics smell_instances vectors all_test_files
      if metrics.isEmpty then
        { error := some (str ("No metrics could be computed. Check smell instances.")), metrics := [] }
      else
        { metrics := metrics
          ranked_smells := some (rank_smells (metrics.map (·.2)))
          statistics := some
            { total_commits := total_commits
              faulty_commits := faulty
              fault_commit_pct := pyRoundQ 2 ((100 * faulty : ℚ) / total_commits)
              total_test_files := all_test_files.length
              total_prod_files := all_git_prod_files.length
              smell_types_analyzed := metrics.length
              total_smell_instances := smell_instances.length } }

/- =====================================================
   smell_detection.py — a faithful model of the inspected Python AST subset
   ===================================================== -/

/-- A Python constant value as stored in `ast.Constant`. -/
inductive PyVal where
  | noneV
  | boolV (b : Bool)
  | intV (n : ℤ)
  | floatV (q : ℚ)
  | strV (s : List Char)
deriving DecidableEq

/-- The numeric content of a constant.  `bool` is a subclass of `int` in
Python, so `True`/`False` are numeric (`1`/`0`). -/
def PyVal.numericVal : PyVal → Option ℚ
  | boolV b => some (if b then 1 else 0)
  | intV n => some ((n : ℚ))
  | floatV q => some q
  | _ => none

/-- Python `==` on constant values: numerics compare by value across
`bool`/`int`/`float`; other values compare structurally. -/
def pyEq (a b : PyVal) : Bool :=
  match a.numericVal, b.numericVal with
  | some x, some y => decide (x = y)
  | _, _ => decide (a = b)

/-- Comparison operators: the detector only ever distinguishes `ast.Eq`. -/
inductive CmpOp where
  | eq
  | other
deriving DecidableEq

/-- The expression subset inspected by the detector.  Every Python expression
node carries a line number, but the detector only ever reads it from `Call`
nodes, so only `callE` stores one.  `ast.walk` also yields operator and
context nodes; they match none of the detector's `isinstance` filters and are
not represented. -/
inductive PyExpr where
  | constE (v : PyVal)
  | nameE (id : List Char)
  | attrE (value : PyExpr) (attrName : List Char)
  | compareE (left : PyExpr) (ops : List CmpOp) (comparators : List PyExpr)
  | callE (line : ℕ) (func : PyExpr) (args : List PyExpr)

mutual
/-- The statement subset inspected by the detector.  Assignment targets and
`for` targets are omitted: the walk yields them, but they are `Name`/`Tuple`
nodes that match none of the detector's filters. -/
inductive PyStmt where
  | assertS (line : ℕ) (test : PyExpr) (msg : Option PyExpr)
  | assignS (line : ℕ) (value : PyExpr)
  | exprS (line : ℕ) (value : PyExpr)
  | passS (line : ℕ)
  | ifS (line : ℕ) (test : PyExpr) (body orelse : List PyStmt)
  | forS (line : ℕ) (iter : PyExpr) (body : List PyStmt)
  | whileS (line : ℕ) (test : PyExpr) (body : List PyStmt)
  | tryS (line : ℕ) (body : List PyStmt) (handlers : List Handler)
      (orelse finalbody : List PyStmt)

/-- An `ast.excepthandler` clause. -/
inductive Handler where
  | mk (line : ℕ) (type : Option PyExpr) (body : List PyStmt)
end

/-- A node yielded by `ast.walk`. -/
inductive Node where
  | stmt (s : PyStmt)
  | expr (e : PyExpr)
  | handler (h : Handler)

/-- `ast.iter_child_nodes` on an expression, in field order. -/
def exprChildren : PyExpr → List Node
  | .constE _ => []
  | .nameE _ => []
  | .attrE v _ => [.expr v]
  | .compareE l _ comps => .expr l :: comps.map .expr
  | .callE _ f args => .expr f :: args.map .expr

/-- `ast.iter_child_nodes` on a statement, in field order. -/
def stmtChildren : PyStmt → List Node
  | .assertS _ t m => .expr t :: (match m with | some e => [.expr e] | none => [])
  | .assignS _ v => [.expr v]
  | .exprS _ v => [.expr v]
  | .passS _ => []
  | .ifS _ t b e => .expr t :: (b.map .stmt ++ e.map .stmt)
  | .forS _ it b => .expr it :: b.map .stmt
  | .whileS _ t b => .expr t :: b.map .stmt
  | .tryS _ b hs e f => b.map .stmt ++ hs.map .handler ++ e.map .stmt ++ f.map .stmt

/-- `ast.iter_child_nodes` on an except-handler. -/
def handlerChildren : Handler → List Node
  | .mk _ t b => (match t with | some e => [.expr e] | none => []) ++ b.map .stmt

/-- Children of any node. -/
def nodeChildren : Node → List Node
  | .stmt s => stmtChildren s
  | .expr e => exprChildren e
  | .handler h => handlerChildren h

mutual
/-- Node count of an expression (one plus the sizes of its children). -/
def sizeE : PyExpr → ℕ
  | .constE _ => 1
  | .nameE _ => 1
  | .attrE v _ => 1 + sizeE v
  | .compareE l _ comps => 1 + sizeE l + sizeEL comps
  | .callE _ f args => 1 + sizeE f + sizeEL args
/-- Total node count of an expression list. -/
def sizeEL : List PyExpr → ℕ
  | [] => 0
  | e :: es => sizeE e + sizeEL es
end

mutual
/-- Node count of a statement. -/
def sizeS : PyStmt → ℕ
  | .assertS _ t m => 1 + sizeE t + (match m with | some e => sizeE e | none => 0)
  | .assignS _ v => 1 + sizeE v
  | .exprS _ v => 1 + sizeE v
  | .passS _ => 1
  | .ifS _ t b e => 1 + sizeE t + sizeSL b + sizeSL e
  | .forS _ it b => 1 + sizeE it + sizeSL b
  | .whileS _ t b => 1 + sizeE t + sizeSL b
  | .tryS _ b hs e f => 1 + sizeSL b + sizeHL hs + sizeSL e + sizeSL f
/-- Total node count of a statement list. -/
def sizeSL : List PyStmt → ℕ
  | [] => 0
  | s :: ss => sizeS s + sizeSL ss
/-- Node count of a handler. -/
def sizeH : Handler → ℕ
  | .mk _ t b => 1 + (match t with | some e => sizeE e | none => 0) + sizeSL b
/-- Total node count of a handler list. -/
def sizeHL : List Handler → ℕ
  | [] => 0
  | h :: hs => sizeH h + sizeHL hs
end

/-- Node count of a walk node. -/
def sizeN : Node → ℕ
  | .stmt s => sizeS s
  | .expr e => sizeE e
  | .handler h => sizeH h

/-- Total node count of a queue. -/
def sizeQ : List Node → ℕ
  | [] => 0
  | n :: q => sizeN n + sizeQ q

/-- Fuel-driven breadth-first traversal.  One unit of fuel is spent per
yielded node; `sizeQ q` units are exactly enough to drain a queue `q`
(each popped node replaces itself by its children, whose total size is one
less than its own). -/
def bfsAux : ℕ → List Node → List Node
  | 0, _ => []
  | _ + 1, [] => []
  | k + 1, n :: q => n :: bfsAux k (q ++ nodeChildren n)

/-- `ast.walk`: breadth-first traversal using a FIFO queue, starting from the
given queue of roots. -/
def bfs (q : List Node) : List Node := bfsAux (sizeQ q) q

/- =====================================================
   smell_detection.py — function-level detectors
   ===================================================== -/

/-- A detector-emitted smell.  The human-readable message is modelled only
through the data interpolated into it: `ref` is the earlier line quoted by a
Duplicate Assert message, `count` the count quoted by Assertion Roulette /
Redundant Print messages. -/
structure Smell where
  type : List Char
  line : ℕ
  ref : Option ℕ := none
  count : Option ℕ := none
deriving DecidableEq

mutual
/-- `ast.unparse` on the modelled expression subset: a deterministic textual
rendering, independent of line numbers.  Duplicate Assert keys assertions by
this text. -/
def unparseE : PyExpr → List Char
  | .constE (PyVal.noneV) => str ("None")
  | .constE (PyVal.boolV true) => str ("True")
  | .constE (PyVal.boolV false) => str ("False")
  | .constE (PyVal.intV n) => str ("int:") ++ (Nat.toDigits 10 n.natAbs) ++
      (if n < 0 then str ("-") else [])
  | .constE (PyVal.floatV q) => str ("float:") ++ (Nat.toDigits 10 q.num.natAbs) ++
      str ("/") ++ (Nat.toDigits 10 q.den) ++ (if q.num < 0 then str ("-") else [])
  | .constE (PyVal.strV s) => str ("'") ++ s ++ str ("'")
  | .nameE i => i
  | .attrE v a => unparseE v ++ str (".") ++ a
  | .compareE l ops comps =>
      unparseE l ++ str (" ") ++
      (ops.map (fun o => match o with | CmpOp.eq => str ("==") | CmpOp.other => str ("?"))).join
      ++ str (" ") ++ unparseEL comps
  | .callE _ f args => unparseE f ++ str ("(") ++ unparseEL args ++ str (")")
/-- Render an expression list, comma separated. -/
def unparseEL : List PyExpr → List Char
  | [] => []
  | [e] => unparseE e
  | e :: es => unparseE e ++ str (", ") ++ unparseEL es
end

/-- The data of one `ast.Assert` node: line, test expression, optional msg. -/
def assertInfo : Node → Option (ℕ × PyExpr × Option PyExpr)
  | .stmt (PyStmt.assertS l t m) => some (l, t, m)
  | _ => none

/-- The line number the detector can read off a walked node
(`getattr(node, lineno, None)`); the expression nodes modelled without a
line are never matched by a line-reading filter. -/
def nodeLine : Node → Option ℕ
  | .stmt (PyStmt.assertS l _ _) => some l
  | .stmt (PyStmt.assignS l _) => some l
  | .stmt (PyStmt.exprS l _) => some l
  | .stmt (PyStmt.passS l) => some l
  | .stmt (PyStmt.ifS l _ _ _) => some l
  | .stmt (PyStmt.forS l _ _) => some l
  | .stmt (PyStmt.whileS l _ _) => some l
  | .stmt (PyStmt.tryS l _ _ _ _) => some l
  | .expr (PyExpr.callE l _ _) => some l
  | .handler (Handler.mk l _ _) => some l
  | .expr _ => none

/-- `len(body) == 1 and isinstance(body[0], ast.Pass)`. -/
def isPassOnly : List PyStmt → Bool
  | [PyStmt.passS _] => true
  | _ => false

/-- `len(body) == 1 and isinstance(body[0], ast.Expr) and
isinstance(body[0].value, ast.Constant)`. -/
def isDocstringOnly : List PyStmt → Bool
  | [PyStmt.exprS _ (PyExpr.constE _)] => true
  | _ => false

/-- Assertion Roulette: more than 3 assertions of which more than 3 carry no
message. -/
def arSmells (funcLine : ℕ) (asserts : List (ℕ × PyExpr × Option PyExpr)) : List Smell :=
  if 3 < asserts.length then
    let noMsg := asserts.filter (fun a => a.2.2.isNone)
    if 3 < noMsg.length then
      [{ type := str ("Assertion Roulette"), line := funcLine, count := some noMsg.length }]
    else []
  else []

/-- `isinstance(node.test, ast.Constant) and node.test.value is True`. -/
def isTriviallyTrue : PyExpr → Bool
  | .constE (PyVal.boolV true) => true
  | _ => false

/-- A `Const == Const` comparison whose two constants are Python-equal. -/
def isTautology : PyExpr → Bool
  | .compareE (PyExpr.constE a) [CmpOp.eq] [PyExpr.constE b] => pyEq a b
  | _ => false

/-- Redundant Assertion: one smell per always-true assertion. -/
def raSmells (asserts : List (ℕ × PyExpr × Option PyExpr)) : List Smell :=
  asserts.filterMap (fun a =>
    if isTriviallyTrue a.2.1 || isTautology a.2.1 then
      some { type := str ("Redundant Assertion"), line := a.1 }
    else none)

/-- `isinstance(comparator, ast.Constant) and comparator.value in (True, False)`
— Python `in` compares with `==`, so numeric `1`/`0` also match. -/
def isBoolComparator : PyExpr → Bool
  | .constE v => pyEq v (PyVal.boolV true) || pyEq v (PyVal.boolV false)
  | _ => false

/-- Suboptimal Assert: an assertion comparing against a boolean literal
(at most one report per assertion — the source breaks after the first hit). -/
def saSmells (asserts : List (ℕ × PyExpr × Option PyExpr)) : List Smell :=
  asserts.filterMap (fun a =>
    match a.2.1 with
    | .compareE _ _ comps =>
        if comps.any isBoolComparator then
          some { type := str ("Suboptimal Assert"), line := a.1 }
        else none
    | _ => none)

/-- Duplicate Assert: fold over the assertions in walk order with the
`seen_assertions` dict (text of the test expression → line first seen). -/
def daFold (seen : List (List Char × ℕ)) :
    List (ℕ × PyExpr × Option PyExpr) → List Smell
  | [] => []
  | a :: rest =>
      let key := unparseE a.2.1
      match (seen.find? (fun p => p.1 = key)).map (·.2) with
      | some l0 =>
          { type := str ("Duplicate Assert"), line := a.1, ref := some l0 } ::
            daFold seen rest
      | none => daFold (seen ++ [(key, a.1)]) rest

/-- A numeric constant other than `0`, `1`, `-1` (bool counts as numeric and
`True`/`False` equal `1`/`0`, so they are never magic). -/
def isMagicComparator : PyExpr → Bool
  | .constE v =>
      match v.numericVal with
      | some q => !(decide (q = 0) || decide (q = 1) || decide (q = -1))
      | none => false
  | _ => false

/-- Magic Number Test: one report per assertion whose comparison carries a
non-{0, ±1} numeric comparator. -/
def mntSmells (asserts : List (ℕ × PyExpr × Option PyExpr)) : List Smell :=
  asserts.filterMap (fun a =>
    match a.2.1 with
    | .compareE _ _ comps =>
        if comps.any isMagicComparator then
          some { type := str ("Magic Number Test"), line := a.1 }
        else none
    | _ => none)

/-- `isinstance(node, ast.Assign)`. -/
def isAssignNode : Node → Bool
  | .stmt (PyStmt.assignS _ _) => true
  | _ => false

/-- A call whose callee is a capitalised bare name (the constructor-call
heuristic: `node.func.id and node.func.id[0].isupper()`). -/
def isUpperCallNode : Node → Bool
  | .expr (PyExpr.callE _ (PyExpr.nameE id) _) =>
      match id with
      | [] => false
      | c :: _ => c.isUpper
  | _ => false

/-- The assignment/constructor-call counters of the Obscure In-Line Setup
check: walk every node, skip nodes at or after the first assertion line
(Python truthiness: the skip only applies when both line numbers are
non-zero), and count `Assign` statements and capitalised calls. -/
def osCounts (firstAssert : Option ℕ) (all_nodes : List Node) : ℕ × ℕ :=
  all_nodes.foldl
    (fun acc n =>
      let skip :=
        match firstAssert, nodeLine n with
        | some fa, some l => decide (0 < fa) && decide (0 < l) && decide (fa ≤ l)
        | _, _ => false
      if skip then acc
      else
        ((if isAssignNode n then acc.1 + 1 else acc.1),
         (if isUpperCallNode n then acc.2 + 1 else acc.2)))
    (0, 0)

/-- Obscure In-Line Setup: at least 3 assignments or at least 2 constructor
calls before the first assertion. -/
def osSmells (funcLine : ℕ) (all_nodes : List Node)
    (asserts : List (ℕ × PyExpr × Option PyExpr)) : List Smell :=
  let c := osCounts (asserts.map (·.1)).min? all_nodes
  if 3 ≤ c.1 || 2 ≤ c.2 then
    [{ type := str ("Obscure In-Line Setup"), line := funcLine }]
  else []

/-- `isinstance(node, ast.If)`. -/
def isIfNode : Node → Bool
  | .stmt (PyStmt.ifS _ _ _ _) => true
  | _ => false

/-- `isinstance(node, (ast.For, ast.While))`. -/
def isLoopNode : Node → Bool
  | .stmt (PyStmt.forS _ _ _) => true
  | .stmt (PyStmt.whileS _ _ _) => true
  | _ => false

/-- Conditional Test Logic: first `If` in walk order, then first loop in walk
order (one report per construct kind). -/
def ctlSmells (all_nodes : List Node) : List Smell :=
  (match all_nodes.find? isIfNode with
   | some n => [{ type := str ("Conditional Test Logic"), line := (nodeLine n).getD 0 }]
   | none => []) ++
  (match all_nodes.find? isLoopNode with
   | some n => [{ type := str ("Conditional Test Logic"), line := (nodeLine n).getD 0 }]
   | none => [])

/-- A bare handler or one catching the fully generic `Exception`. -/
def isGenericHandler : Handler → Bool
  | .mk _ none _ => true
  | .mk _ (some (PyExpr.nameE id)) _ => id = str ("Exception")
  | _ => false

/-- Exception Handling: one report per `Try` statement with a generic
handler. -/
def ehSmells (all_nodes : List Node) : List Smell :=
  all_nodes.filterMap (fun n =>
    match n with
    | .stmt (PyStmt.tryS l _ handlers _ _) =>
        if handlers.any isGenericHandler then
          some { type := str ("Exception Handling"), line := l }
        else none
    | _ => none)

/-- A call of an attribute named `sleep`. -/
def isSleepCall : Node → Bool
  | .expr (PyExpr.callE _ (PyExpr.attrE _ a) _) => a = str ("sleep")
  | _ => false

/-- Sleepy Test: first `*.sleep(...)` call in walk order. -/
def stSmells (all_nodes : List Node) : List Smell :=
  match all_nodes.find? isSleepCall with
  | some n => [{ type := str ("Sleepy Test"), line := (nodeLine n).getD 0 }]
  | none => []

/-- The lines of the `print(...)` calls, in walk order. -/
def printLines (all_nodes : List Node) : List ℕ :=
  all_nodes.filterMap (fun n =>
    match n with
    | .expr (PyExpr.callE l (PyExpr.nameE id) _) =>
        if id = str ("print") then some l else none
    | _ => none)

/-- Redundant Print: one report at the first print line with the count. -/
def rpSmells (all_nodes : List Node) : List Smell :=
  match printLines all_nodes with
  | [] => []
  | l :: rest => [{ type := str ("Redundant Print"), line := l, count := some (rest.length + 1) }]

/-- `_analyze_function_smells(func_node, lines)`: the full function-scope
battery, in source order.  The Empty Test branches return before any other
check runs. -/
def analyze_function_smells (name : List Char) (funcLine : ℕ) (body : List PyStmt) :
    List Smell :=
  if !((str ("test_")).isPrefixOf name) then []
  else if body.isEmpty || isPassOnly body then
    [{ type := str ("Empty Test"), line := funcLine }]
  else if isDocstringOnly body then
    [{ type := str ("Empty Test"), line := funcLine }]
  else
    let all_nodes := bfs (body.map Node.stmt)
    let asserts := all_nodes.filterMap assertInfo
    arSmells funcLine asserts ++ raSmells asserts ++ saSmells asserts ++
    daFold [] asserts ++ mntSmells asserts ++ osSmells funcLine all_nodes asserts ++
    ctlSmells all_nodes ++ ehSmells all_nodes ++ stSmells all_nodes ++
    rpSmells all_nodes

/- =====================================================
   smell_detection.py — class-level detectors and dispatcher
   ===================================================== -/

/-- An `ast.FunctionDef` node (name, line, body). -/
structure FuncDef where
  name : List Char
  line : ℕ
  body : List PyStmt

/-- An `ast.ClassDef` node; only its method members are inspected. -/
structure ClassDef where
  line : ℕ
  methods : List FuncDef

/-- Count of `Assign` nodes in the walk of a method (used by the General
Fixture check on setup methods). -/
def assignCount (m : FuncDef) : ℕ :=
  ((bfs (m.body.map Node.stmt)).filter isAssignNode).length

/-- The `self.*` attribute names referenced anywhere in a method. -/
def selfAttrs (m : FuncDef) : Finset (List Char) :=
  ((bfs (m.body.map Node.stmt)).filterMap (fun n =>
    match n with
    | .expr (PyExpr.attrE (PyExpr.nameE id) a) =>
        if id = str ("self") then some a else none
    | _ => none)).toFinset

/-- `_analyze_class_smells(class_node)`: Constructor Initialization, General
Fixture, Test Maverick, Lack of Cohesion of Test Cases, in source order. -/
def analyze_class_smells (c : ClassDef) : List Smell :=
  let all_methods := c.methods
  let test_methods := all_methods.filter (fun m => (str ("test_")).isPrefixOf m.name)
  let ci :=
    if all_methods.any (fun m => m.name = str ("__init__")) then
      [{ type := str ("Constructor Initialization"), line := c.line }]
    else []
  let setup_methods := all_methods.filter (fun m =>
    m.name = str ("setUp") || m.name = str ("setup") ||
    m.name = str ("setup_method") || m.name = str ("setUpClass"))
  let gf := setup_methods.filterMap (fun m =>
    if 5 < assignCount m then
      some { type := str ("General Fixture"), line := m.line, count := some (assignCount m) }
    else none)
  let tm :=
    if test_methods.length = 1 then
      [{ type := str ("Test Maverick"), line := c.line }]
    else []
  let lctc :=
    if 1 < test_methods.length then
      let attr_sets := test_methods.map selfAttrs
      let non_empty := attr_sets.filter (fun s => decide (s ≠ (∅ : Finset (List Char))))
      if non_empty.length = attr_sets.length ∧ 1 < attr_sets.length then
        let common := match attr_sets with
          | [] => (∅ : Finset (List Char))
          | s :: rest => rest.foldl (fun a b => a ∩ b) s
        if common = (∅ : Finset (List Char)) then
          [{ type := str ("Lack of Cohesion of Test Cases"), line := c.line }]
        else []
      else []
    else []
  ci ++ gf ++ tm ++ lctc

/-- A parsed test file: its `ClassDef` and `FunctionDef` nodes in `ast.walk`
order (parsing is I/O, modelled as input; a file that fails to parse simply
contributes empty lists, mirroring the absorbed exception). -/
structure ParsedFile where
  classes : List ClassDef
  functions : List FuncDef

instance : Inhabited ParsedFile := ⟨⟨[], []⟩⟩

/-- `detect_all_smells(test_file)`: class-level smells of every class, then
function-level smells of every function. -/
def detect_all_smells (f : ParsedFile) : List Smell :=
  (f.classes.map analyze_class_smells).flatten ++
  (f.functions.map (fun fn => analyze_function_smells fn.name fn.line fn.body)).flatten

/- =====================================================
   smell_detection.py — `detect_smells_for_project`
   ===================================================== -/

/-- One entry of the `details` list (`{'file', 'smells', 'smell_count'}`). -/
structure FileDetail where
  file : List Char
  smells : List Smell
  smell_count : ℕ

/-- The dict returned by `detect_smells_for_project`. -/
structure DetectResult where
  total_files : ℕ
  total_smells : ℕ
  details : List FileDetail
  git_metrics : Option GitResult

/-- Number of parameters in the definition
`def analyze_project_with_git(project_path, smell_instances)` — neither has a
default. -/
def analyze_param_count : ℕ := 2

/-- Number of positional arguments at the call site
`analyze_project_with_git(project_path, all_smell_instances, cp_weight)`
inside `detect_smells_for_project`. -/
def analyze_call_arg_count : ℕ := 3

/-- Python call semantics for the guarded call: a positional call binds only
when the argument count matches the parameter count, otherwise it raises
`TypeError` before the callee body runs. -/
noncomputable def tryCallAnalyze (commits : List Commit) (insts : List SmellInst) :
    Except (List Char) GitResult :=
  if analyze_call_arg_count = analyze_param_count then
    Except.ok (analyze_project_with_git commits insts)
  else
    Except.error
      (str ("analyze_project_with_git() takes 2 positional arguments but 3 were given"))

/-- The `git_metrics` field computed by `detect_smells_for_project` when
`include_git_metrics` holds: with smell instances present, call
`analyze_project_with_git` under the absorbing `try/except`; with none,
report the note that depends on whether a `.git` directory exists. -/
noncomputable def gitAnalysisFor (insts : List SmellInst) (hasGitDir : Bool)
    (commits : List Commit) : GitResult :=
  if !insts.isEmpty then
    match tryCallAnalyze commits insts with
    | Except.ok r => r
    | Except.error msg =>
        { error := some (str ("Git metrics could not be computed. Reason: ") ++ msg)
          metrics := [] }
  else
    { error := none
      metrics := []
      note := some
        (if hasGitDir then
          str ("No test smells were detected, so git-based prioritization was not performed.")
        else
          str ("The project does not include git history to prioritize the smells. Upload a project that contains a .git folder (with commit history) to enable CP, FP, and PS prioritization scores.")) }

/-- `detect_smells_for_project(project_path, include_git_metrics, cp_weight)`.
The filesystem walk is I/O: the matched test files arrive as parsed inputs,
the presence of `.git` and the commit history as parameters.  `cp_weight` is
accepted and is passed only as the excess third argument of the internal
call. -/
noncomputable def detect_smells_for_project (files : List (List Char × ParsedFile))
    (include_git_metrics : Bool) (cp_weight : ℚ) (hasGitDir : Bool)
    (commits : List Commit) : DetectResult :=
  if files.isEmpty then
    { total_files := 0, total_smells := 0, details := [], git_metrics := none }
  else
    let details := files.map (fun p =>
      { file := p.1
        smells := detect_all_smells p.2
        smell_count := (detect_all_smells p.2).length : FileDetail })
    let instances := (files.map (fun p =>
      (detect_all_smells p.2).map (fun s => SmellInst.mk s.type p.1 s.line))).flatten
    { total_files := files.length
      total_smells := (files.map (fun p => (detect_all_smells p.2).length)).sum
      details := details
      git_metrics :=
        if include_git_metrics then some (gitAnalysisFor instances hasGitDir commits)
        else none }

/- =====================================================
   Spec-side definitions (worded from the specification, for the
   refinement-style claim statements)
   ===================================================== -/

/-- The spec's "message contains the keyword as a case-insensitive
substring": some contiguous slice of the message lower-cases to the
keyword. -/
def containsCaseInsensitive (msg kw : List Char) : Prop :=
  ∃ s mid t, s ++ mid ++ t = msg ∧ pyLower mid = kw

/-- The spec's Change-Proneness: the sum of the presence correlations with
the `chg_freq` and `chg_ext` signal columns. -/
noncomputable def changeProneness (instances : List SmellInst)
    (vectors : List (List Char × CombinedVector)) (all_test_files : List (List Char))
    (t : List Char) : ℝ :=
  (spearman (presenceVec instances all_test_files t)
    (signalCol vectors all_test_files (fun v => v.chg_freq))).1 +
  (spearman (presenceVec instances all_test_files t)
    (signalCol vectors all_test_files (fun v => v.chg_ext))).1

/-- The spec's Fault-Proneness: the sum of the presence correlations with
the `fault_freq` and `fault_ext` signal columns. -/
noncomputable def faultProneness (instances : List SmellInst)
    (vectors : List (List Char × CombinedVector)) (all_test_files : List (List Char))
    (t : List Char) : ℝ :=
  (spearman (presenceVec instances all_test_files t)
    (signalCol vectors all_test_files (fun v => v.fault_freq))).1 +
  (spearman (presenceVec instances all_test_files t)
    (signalCol vectors all_test_files (fun v => v.fault_ext))).1

/-- A smell-metrics record with its rank field cleared (for comparing ranked
output against unranked input). -/
def clearRank (e : SmellMetrics) : SmellMetrics := { e with data_rank := none }

/-- The assert data of one statement (line, test, message). -/
def stmtAssertInfo (s : PyStmt) : Option (ℕ × PyExpr × Option PyExpr) :=
  assertInfo (Node.stmt s)

/-- A statement with no nested statements: at such bodies the breadth-first
walk enumerates the statements in source order. -/
def isFlatStmt : PyStmt → Bool
  | PyStmt.assertS _ _ _ => true
  | PyStmt.assignS _ _ => true
  | PyStmt.exprS _ _ => true
  | PyStmt.passS _ => true
  | _ => false

/-- Descending order on prioritization scores (the sort key of
`rank_smells`). -/
def psGe (a b : SmellMetrics) : Prop :=
  b.prioritization_score ≤ a.prioritization_score

/-- Recognize expression nodes. -/
def isExprNode : Node → Bool
  | .expr _ => true
  | _ => false

/- =====================================================
   Helper lemmas: strings and lists
   ===================================================== -/

/- =====================================================
   Helper lemmas: sizes and the breadth-first walk
   ===================================================== -/

theorem sizeQ_append (a b : List Node) : sizeQ (a ++ b) = sizeQ a + sizeQ b := by
  induction a with
  | nil => simp [sizeQ]
  | cons n q ih => simp [sizeQ, ih]; omega

theorem sizeQ_map_expr (l : List PyExpr) : sizeQ (l.map Node.expr) = sizeEL l := by
  induction l with
  | nil => simp [sizeQ, sizeEL]
  | cons e es ih => simp [sizeQ, sizeEL, sizeN, ih]

theorem sizeQ_map_stmt (l : List PyStmt) : sizeQ (l.map Node.stmt) = sizeSL l := by
  induction l with
  | nil => simp [sizeQ, sizeSL]
  | cons s ss ih => simp [sizeQ, sizeSL, sizeN, ih]

theorem sizeQ_map_handler (l : List Handler) : sizeQ (l.map Node.handler) = sizeHL l := by
  induction l with
  | nil => simp [sizeQ, sizeHL]
  | cons h hs ih => simp [sizeQ, sizeHL, sizeN, ih]

theorem sizeQ_children_lt (n : Node) : sizeQ (nodeChildren n) < sizeN n := by
  cases n with
  | stmt s =>
      cases s with
      | assertS l t m =>
          cases m <;>
            simp [nodeChildren, stmtChildren, sizeN, sizeS, sizeQ] <;> omega
      | _ =>
          simp [nodeChildren, stmtChildren, sizeN, sizeS, sizeQ, sizeQ_append,
            sizeQ_map_expr, sizeQ_map_stmt, sizeQ_map_handler] <;> omega
  | expr e =>
      cases e <;>
        simp [nodeChildren, exprChildren, sizeN, sizeE, sizeQ, sizeQ_append,
          sizeQ_map_expr] <;> omega
  | handler h =>
      cases h with
      | mk _ t b =>
          cases t <;>
            simp [nodeChildren, handlerChildren, sizeN, sizeH, sizeQ, sizeQ_append,
              sizeQ_map_stmt] <;> omega

/-- Every node has positive size. -/
theorem sizeN_pos (n : Node) : 1 ≤ sizeN n := by
  cases n with
  | stmt s => cases s <;> simp [sizeN, sizeS] <;> omega
  | expr e => cases e <;> simp [sizeN, sizeE] <;> omega
  | handler h => cases h <;> simp [sizeN, sizeH] <;> omega

/-- With at least `sizeQ q` fuel, the fuel bound never truncates: any two
sufficient fuels agree. -/
theorem bfsAux_fuel_eq : ∀ (k k2 : ℕ) (q : List Node), sizeQ q ≤ k → sizeQ q ≤ k2 →
    bfsAux k q = bfsAux k2 q := by
  intro k
  induction k with
  | zero =>
      intro k2 q hq _
      cases q with
      | nil => cases k2 <;> simp [bfsAux]
      | cons n q2 =>
          exfalso
          have := sizeN_pos n
          simp [sizeQ] at hq
          omega
  | succ k ih =>
      intro k2 q hq hq2
      cases q with
      | nil => cases k2 <;> simp [bfsAux]
      | cons n q2 =>
          cases k2 with
          | zero =>
              exfalso
              have := sizeN_pos n
              simp [sizeQ] at hq2
              omega
          | succ k3 =>
              simp only [bfsAux]
              have hc := sizeQ_children_lt n
              have hsz : sizeQ (q2 ++ nodeChildren n) ≤ k := by
                simp [sizeQ_append]
                simp [sizeQ] at hq
                omega
              have hsz2 : sizeQ (q2 ++ nodeChildren n) ≤ k3 := by
                simp [sizeQ_append]
                simp [sizeQ] at hq2
                omega
              rw [ih k3 _ hsz hsz2]

/-- The one-step unfolding of `bfs`. -/
theorem bfs_cons (n : Node) (q : List Node) :
    bfs (n :: q) = n :: bfs (q ++ nodeChildren n) := by
  have h1 : sizeQ (n :: q) = sizeN n + sizeQ q := rfl
  have hc := sizeQ_children_lt n
  have hp := sizeN_pos n
  show bfsAux (sizeQ (n :: q)) (n :: q) = n :: bfsAux (sizeQ (q ++ nodeChildren n)) (q ++ nodeChildren n)
  have h2 : sizeQ (n :: q) = (sizeN n + sizeQ q - 1) + 1 := by omega
  rw [h2]
  simp only [bfsAux]
  congr 1
  exact bfsAux_fuel_eq _ _ _ (by simp [sizeQ_append]; omega) (le_refl _)

/-- `bfs` of the empty queue. -/
theorem bfs_nil : bfs [] = [] := rfl

theorem isPrefixOf_iff_exists : ∀ (a b : List Char), a.isPrefixOf b = true ↔ ∃ t, a ++ t = b := by
  intro a
  induction a with
  | nil => intro b; simp [List.isPrefixOf]
  | cons c cs ih =>
      intro b
      cases b with
      | nil => simp [List.isPrefixOf]
      | cons d ds =>
          simp [List.isPrefixOf, ih]

theorem isSuffixOf_iff_exists (a b : List Char) :
    a.isSuffixOf b = true ↔ ∃ s, s ++ a = b := by
  show a.reverse.isPrefixOf b.reverse = true ↔ _
  rw [isPrefixOf_iff_exists]
  constructor
  · rintro ⟨t, ht⟩
    refine ⟨t.reverse, ?_⟩
    have := congrArg List.reverse ht
    simpa using this
  · rintro ⟨s, hs⟩
    refine ⟨s.reverse, ?_⟩
    have := congrArg List.reverse hs
    simpa using this

theorem isSubstring_iff_exists (kw : List Char) :
    ∀ m : List Char, isSubstring kw m = true ↔ ∃ s t, s ++ kw ++ t = m := by
  intro m
  induction m with
  | nil =>
      simp [isSubstring, List.isEmpty_iff]
  | cons c rest ih =>
      simp only [isSubstring, Bool.or_eq_true, ih, isPrefixOf_iff_exists]
      constructor
      · rintro (⟨t, ht⟩ | ⟨s, t, h⟩)
        · exact ⟨[], t, by simpa using ht⟩
        · exact ⟨c :: s, t, by simp [h]⟩
      · rintro ⟨s, t, h⟩
        cases s with
        | nil => exact Or.inl ⟨t, by simpa using h⟩
        | cons c2 s2 =>
            right
            refine ⟨s2, t, ?_⟩
            have := congrArg (fun l => l.tail) h
            simpa using this

theorem substring_pyLower_iff (kw msg : List Char) :
    isSubstring kw (pyLower msg) = true ↔ containsCaseInsensitive msg kw := by
  rw [isSubstring_iff_exists]
  constructor
  · rintro ⟨s, t, h⟩
    refine ⟨msg.take s.length, (msg.drop s.length).take kw.length,
      (msg.drop s.length).drop kw.length, by simp, ?_⟩
    have hdrop : (pyLower msg).drop s.length = kw ++ t := by
      rw [← h]
      simpa using List.drop_left s (kw ++ t)
    have htake : ((pyLower msg).drop s.length).take kw.length = kw := by
      rw [hdrop]
      exact List.take_left kw t
    calc pyLower ((msg.drop s.length).take kw.length)
        = ((pyLower msg).drop s.length).take kw.length := by
          simp [pyLower, List.map_take, List.map_drop]
      _ = kw := htake
  · rintro ⟨s, mid, t, hsplit, hlow⟩
    refine ⟨pyLower s, pyLower t, ?_⟩
    rw [← hlow, ← hsplit]
    simp [pyLower]

/- =====================================================
   C10 — commit fault classification
   ===================================================== -/

/-- C10: commit fault classification is a pure function of the message:
`is_faulty_commit` returns `true` exactly when some fixed fault keyword
occurs in the message as a case-insensitive substring. -/
theorem C10_theorem (msg : List Char) :
    is_faulty_commit msg = true ↔
      ∃ kw ∈ FAULT_KEYWORDS, containsCaseInsensitive msg kw := by
  simp only [is_faulty_commit, List.any_eq_true]
  constructor
  · rintro ⟨kw, hmem, hsub⟩
    exact ⟨kw, hmem, (substring_pyLower_iff kw msg).1 hsub⟩
  · rintro ⟨kw, hmem, hc⟩
    exact ⟨kw, hmem, (substring_pyLower_iff kw msg).2 hc⟩

/- =====================================================
   C3 — tolerant path matcher
   ===================================================== -/

/-- C3 counterexample: `a/testfoo.py` vs `b/testfoo.py` match (equal basename
beginning with `test`), yet neither path is test-classified, the normalized
paths differ, and neither is a suffix of the other — so the claim's
"both basenames equal and both paths test-classified" does not characterize
the third matching rule. -/
theorem C3_counterexample :
    paths_match (str ("a/testfoo.py")) (str ("b/testfoo.py")) = true ∧
    is_test_file (str ("a/testfoo.py")) = false ∧
    is_test_file (str ("b/testfoo.py")) = false ∧
    normalize (str ("a/testfoo.py")) ≠ normalize (str ("b/testfoo.py")) ∧
    (normalize (str ("a/testfoo.py"))).isSuffixOf (normalize (str ("b/testfoo.py"))) = false ∧
    (normalize (str ("b/testfoo.py"))).isSuffixOf (normalize (str ("a/testfoo.py"))) = false := by
  decide

/-- C3 amended: the matcher is total and deterministic (it is a Lean
function), and it matches exactly when the normalized paths are equal, or one
normalized path is a suffix of the other, or the basenames are equal and the
common basename begins with `test` (not: "both paths are test-classified"). -/
theorem C3_amended_theorem (a b : List Char) :
    paths_match a b = true ↔
      (normalize a = normalize b ∨
       (∃ s, s ++ normalize b = normalize a) ∨
       (∃ s, s ++ normalize a = normalize b) ∨
       (lastComponent (normalize a) = lastComponent (normalize b) ∧
        ∃ t, (str ("test")) ++ t = lastComponent (normalize a))) := by
  simp only [paths_match, Bool.or_eq_true, Bool.and_eq_true, decide_eq_true_eq,
    isSuffixOf_iff_exists, isPrefixOf_iff_exists]
  tauto

/- =====================================================
   C1 — zero population denominators
   ===================================================== -/

/-- C1 counterexample: with history present but no production-classified and
no test-classified changes (here: an empty per-file metrics table), the
combined-vector computation does not fail with a "no usable history" result —
both denominators silently become `1` via `or 1` and a per-file ratio vector
is still produced for the test file. -/
theorem C1_counterexample :
    prodTotalDenom [] = 1 ∧ testTotalDenom [] = 1 ∧
    build_combined_vectors [str ("test_a.py")] [] [] 0 =
      [(str ("test_a.py"), ⟨0, 0, 0, 0⟩)] := by
  refine ⟨rfl, rfl, ?_⟩
  simp [build_combined_vectors, metricsFor, lookupAssoc, prodTotalDenom, testTotalDenom,
    FileMetrics.zero]

/-- C1 amended: the combined-vector computation never divides by zero — a
zero population denominator (production- or test-side) is replaced by `1` —
and the pipeline continues: a ratio vector is produced for every test file in
every case.  No "no usable history" failure result exists. -/
theorem C1_amended_theorem (test_files : List (List Char))
    (file_metrics : List (List Char × FileMetrics))
    (cochange_map : List (List Char × List (List Char))) (total_commits : ℕ) :
    0 < prodTotalDenom file_metrics ∧ 0 < testTotalDenom file_metrics ∧
    (build_combined_vectors test_files file_metrics cochange_map total_commits).map
      Prod.fst = test_files := by
  have hpos : ∀ n : ℕ, 0 < if n = 0 then 1 else n := by
    intro n; split <;> omega
  have hmap : ∀ {β : Type} (f : List Char → β) (l : List (List Char)),
      l.map (Prod.fst ∘ fun x => (x, f x)) = l := by
    intro β f l
    induction l with
    | nil => rfl
    | cons a t ih => simp only [List.map_cons, ih]; rfl
  refine ⟨hpos _, hpos _, ?_⟩
  simp only [build_combined_vectors, List.map_map]
  exact hmap _ _

/- =====================================================
   C2 — the internal three-argument call can never succeed
   ===================================================== -/

/-- C2: whenever smell instances exist and git metrics are requested, the
`git_metrics` field of the pipeline result is the absorbed-`TypeError`
payload — an error string with an empty metrics mapping — and never a ranked
prioritization payload, because the call site passes three positional
arguments to the two-parameter `analyze_project_with_git`. -/
theorem C2_theorem (files : List (List Char × ParsedFile)) (cpw : ℚ) (hasGit : Bool)
    (commits : List Commit)
    (h : (files.map (fun p =>
        (detect_all_smells p.2).map (fun s => SmellInst.mk s.type p.1 s.line))).flatten ≠ []) :
    (detect_smells_for_project files true cpw hasGit commits).git_metrics =
      some
        { error := some (str ("Git metrics could not be computed. Reason: ") ++
            str ("analyze_project_with_git() takes 2 positional arguments but 3 were given"))
          metrics := [] } := by
  have hfe : files.isEmpty = false := by
    cases files with
    | nil => simp at h
    | cons a l => rfl
  have hinst : ¬ ((files.map (fun p =>
      (detect_all_smells p.2).map (fun s => SmellInst.mk s.type p.1 s.line))).flatten).isEmpty = true := by
    simpa [List.isEmpty_iff] using h
  simp only [detect_smells_for_project, hfe, Bool.false_eq_true, if_false, if_true]
  simp only [gitAnalysisFor, hinst, Bool.not_eq_true', if_true]
  have : tryCallAnalyze commits ((files.map (fun p =>
      (detect_all_smells p.2).map (fun s => SmellInst.mk s.type p.1 s.line))).flatten) =
      Except.error
        (str ("analyze_project_with_git() takes 2 positional arguments but 3 were given")) := by
    unfold tryCallAnalyze analyze_call_arg_count analyze_param_count
    simp
  simp [this, hinst]

/-- C2 witness: a one-file project whose single test contains a trivially
true assertion; the detector emits a Redundant Assertion instance, so the
git branch is taken and produces exactly the arity-mismatch error payload. -/
theorem C2_witness :
    (detect_smells_for_project
        [(str ("test_a.py"),
          ⟨[], [⟨str ("test_foo"), 1, [PyStmt.assertS 2 (PyExpr.constE (PyVal.boolV true)) none]⟩]⟩)]
        true (1 / 2) true []).git_metrics =
      some
        { error := some (str ("Git metrics could not be computed. Reason: ") ++
            str ("analyze_project_with_git() takes 2 positional arguments but 3 were given"))
          metrics := [] } :=
  C2_theorem _ _ _ _ (by decide)

/- =====================================================
   C4 — zero-commit history
   ===================================================== -/

/-- C4: with an empty commit history, `analyze_project_with_git` returns the
structured no-history result — an empty metrics mapping, a non-empty
explanatory message, and no ranked payload — rather than raising; and
`detect_smells_for_project` still populates the per-file smell details from
static analysis and reports every matched file. -/
theorem C4_theorem (commits : List Commit) (insts : List SmellInst)
    (files : List (List Char × ParsedFile)) (cpw : ℚ) (hasGit : Bool)
    (hc : commits = []) :
    ((analyze_project_with_git commits insts).metrics = [] ∧
     (analyze_project_with_git commits insts).error =
       some (str ("No git history found or not a git repository.")) ∧
     (str ("No git history found or not a git repository.")) ≠ [] ∧
     (analyze_project_with_git commits insts).ranked_smells = none) ∧
    ((detect_smells_for_project files true cpw hasGit commits).details =
       files.map (fun p =>
         { file := p.1
           smells := detect_all_smells p.2
           smell_count := (detect_all_smells p.2).length }) ∧
     (detect_smells_for_project files true cpw hasGit commits).total_files = files.length) := by
  subst hc
  constructor
  · refine ⟨?_, ?_, by simp [str], ?_⟩ <;>
      simp [analyze_project_with_git]
  · by_cases hf : files.isEmpty = true
    · have hfe : files = [] := List.isEmpty_iff.mp hf
      subst hfe
      exact ⟨rfl, rfl⟩
    · simp only [Bool.not_eq_true] at hf
      constructor <;> simp only [detect_smells_for_project, hf, Bool.false_eq_true, if_false]

/-- C4 witness: a zero-commit repository with one smelly test file — the
no-history payload is returned by the analyzer, while the detail list still
carries the statically detected Redundant Assertion. -/
theorem C4_witness :
    ((analyze_project_with_git []
        [⟨str ("Redundant Assertion"), str ("test_a.py"), 2⟩]).metrics = [] ∧
     (analyze_project_with_git []
        [⟨str ("Redundant Assertion"), str ("test_a.py"), 2⟩]).error =
       some (str ("No git history found or not a git repository.")) ∧
     (str ("No git history found or not a git repository.")) ≠ [] ∧
     (analyze_project_with_git []
        [⟨str ("Redundant Assertion"), str ("test_a.py"), 2⟩]).ranked_smells = none) ∧
    ((detect_smells_for_project
        [(str ("test_a.py"),
          ⟨[], [⟨str ("test_foo"), 1, [PyStmt.assertS 2 (PyExpr.constE (PyVal.boolV true)) none]⟩]⟩)]
        true (1 / 2) true []).details =
       [(str ("test_a.py"),
          ⟨[], [⟨str ("test_foo"), 1, [PyStmt.assertS 2 (PyExpr.constE (PyVal.boolV true)) none]⟩]⟩)].map
         (fun p =>
           { file := p.1
             smells := detect_all_smells p.2
             smell_count := (detect_all_smells p.2).length }) ∧
     (detect_smells_for_project
        [(str ("test_a.py"),
          ⟨[], [⟨str ("test_foo"), 1, [PyStmt.assertS 2 (PyExpr.constE (PyVal.boolV true)) none]⟩]⟩)]
        true (1 / 2) true []).total_files = 1) :=
  C4_theorem [] _ _ _ _ rfl

/- =====================================================
   C7 — ranking: order, stability, 1-based ranks, idempotence
   ===================================================== -/

theorem mem_insertByPS (x z : SmellMetrics) (l : List SmellMetrics) :
    z ∈ insertByPS x l ↔ z = x ∨ z ∈ l := by
  induction l with
  | nil => simp [insertByPS]
  | cons y ys ih =>
      by_cases h : y.prioritization_score ≤ x.prioritization_score <;>
        simp [insertByPS, h, ih] <;> tauto

theorem insertByPS_perm (x : SmellMetrics) (l : List SmellMetrics) :
    (insertByPS x l).Perm (x :: l) := by
  induction l with
  | nil => simp [insertByPS]
  | cons y ys ih =>
      by_cases h : y.prioritization_score ≤ x.prioritization_score
      · simp [insertByPS, h]
      · simp only [insertByPS, h, if_false]
        exact (ih.cons y).trans (List.Perm.swap x y ys)

theorem sortByPSDesc_perm (l : List SmellMetrics) : (sortByPSDesc l).Perm l := by
  induction l with
  | nil => simp [sortByPSDesc]
  | cons x xs ih => exact (insertByPS_perm x (sortByPSDesc xs)).trans (ih.cons x)

theorem insertByPS_pairwise (x : SmellMetrics) (l : List SmellMetrics)
    (hl : l.Pairwise psGe) : (insertByPS x l).Pairwise psGe := by
  induction l with
  | nil => simp [insertByPS, List.Pairwise]
  | cons y ys ih =>
      rcases List.pairwise_cons.mp hl with ⟨hy, hys⟩
      by_cases h : y.prioritization_score ≤ x.prioritization_score
      · simp only [insertByPS, h, if_true]
        refine List.pairwise_cons.mpr ⟨?_, hl⟩
        intro z hz
        rcases List.mem_cons.mp hz with rfl | hz
        · exact h
        · exact le_trans (hy z hz) h
      · simp only [insertByPS, h, if_false]
        refine List.pairwise_cons.mpr ⟨?_, ih hys⟩
        intro z hz
        rcases (mem_insertByPS x z ys).mp hz with rfl | hz
        · exact le_of_lt (lt_of_not_le h)
        · exact hy z hz

theorem sortByPSDesc_pairwise (l : List SmellMetrics) :
    (sortByPSDesc l).Pairwise psGe := by
  induction l with
  | nil => simp [sortByPSDesc, List.Pairwise]
  | cons x xs ih => exact insertByPS_pairwise x _ ih

theorem sortByPSDesc_eq_self (l : List SmellMetrics) (hl : l.Pairwise psGe) :
    sortByPSDesc l = l := by
  induction l with
  | nil => rfl
  | cons x xs ih =>
      rcases List.pairwise_cons.mp hl with ⟨hx, hxs⟩
      show insertByPS x (sortByPSDesc xs) = x :: xs
      rw [ih hxs]
      cases xs with
      | nil => rfl
      | cons y ys =>
          show insertByPS x (y :: ys) = x :: y :: ys
          have hxy : y.prioritization_score ≤ x.prioritization_score :=
            hx y (List.mem_cons_self y ys)
          simp [insertByPS, hxy]

theorem assignRanks_ps (i : ℕ) (l : List SmellMetrics) :
    (assignRanks i l).map (fun e => e.prioritization_score) =
      l.map (fun e => e.prioritization_score) := by
  induction l generalizing i with
  | nil => rfl
  | cons e es ih => simp [assignRanks, ih]

theorem pairwise_psGe_iff_map (l : List SmellMetrics) :
    l.Pairwise psGe ↔
      (l.map (fun e => e.prioritization_score)).Pairwise (fun a b => b ≤ a) := by
  rw [List.pairwise_map]
  rfl

theorem assignRanks_pairwise (i : ℕ) (l : List SmellMetrics) (h : l.Pairwise psGe) :
    (assignRanks i l).Pairwise psGe := by
  rw [pairwise_psGe_iff_map, assignRanks_ps, ← pairwise_psGe_iff_map]
  exact h

theorem assignRanks_assignRanks (i j : ℕ) (l : List SmellMetrics) :
    assignRanks i (assignRanks j l) = assignRanks i l := by
  induction l generalizing i j with
  | nil => rfl
  | cons e es ih => simp [assignRanks, ih]

theorem assignRanks_map_rank (i : ℕ) (l : List SmellMetrics) :
    (assignRanks i l).map (fun e => e.data_rank) =
      (List.range l.length).map (fun j => some (i + j)) := by
  induction l generalizing i with
  | nil => rfl
  | cons e es ih =>
      have harith : ∀ j : ℕ, i + 1 + j = i + (j + 1) := by omega
      simp [assignRanks, ih, List.range_succ_eq_map, List.map_map, Function.comp, harith]

open Classical in
theorem insertByPS_filter_eq (q : ℝ) (x : SmellMetrics) (l : List SmellMetrics) :
    (insertByPS x l).filter (fun e => decide (e.prioritization_score = q)) =
      if x.prioritization_score = q
      then x :: l.filter (fun e => decide (e.prioritization_score = q))
      else l.filter (fun e => decide (e.prioritization_score = q)) := by
  induction l with
  | nil =>
      by_cases hx : x.prioritization_score = q <;>
        simp [insertByPS, List.filter, hx]
  | cons y ys ih =>
      by_cases hyx : y.prioritization_score ≤ x.prioritization_score
      · show (if y.prioritization_score ≤ x.prioritization_score
            then x :: y :: ys else y :: insertByPS x ys).filter _ = _
        rw [if_pos hyx]
        by_cases hx : x.prioritization_score = q <;>
          by_cases hy : y.prioritization_score = q <;>
            simp [List.filter_cons, hx, hy]
      · show (if y.prioritization_score ≤ x.prioritization_score
            then x :: y :: ys else y :: insertByPS x ys).filter _ = _
        rw [if_neg hyx, List.filter_cons]
        by_cases hx : x.prioritization_score = q
        · have hy : ¬ y.prioritization_score = q := by
            intro he
            exact hyx (by rw [he, ← hx])
          simp [ih, hx, hy]
        · by_cases hy : y.prioritization_score = q <;>
            simp [ih, hx, hy, List.filter_cons]

open Classical in
theorem sortByPSDesc_filter (q : ℝ) (l : List SmellMetrics) :
    (sortByPSDesc l).filter (fun e => decide (e.prioritization_score = q)) =
      l.filter (fun e => decide (e.prioritization_score = q)) := by
  induction l with
  | nil => rfl
  | cons x xs ih =>
      show (insertByPS x (sortByPSDesc xs)).filter _ = _
      rw [insertByPS_filter_eq]
      by_cases hx : x.prioritization_score = q <;>
        simp [hx, ih, List.filter_cons]

open Classical in
theorem assignRanks_filter_clear (q : ℝ) (i : ℕ) (l : List SmellMetrics) :
    (((assignRanks i l).filter (fun e => decide (e.prioritization_score = q))).map clearRank) =
      ((l.filter (fun e => decide (e.prioritization_score = q))).map clearRank) := by
  induction l generalizing i with
  | nil => rfl
  | cons e es ih =>
      by_cases he : e.prioritization_score = q <;>
        simp [assignRanks, List.filter_cons, he, clearRank, ih]

open Classical in
/-- C7: `rank_smells` yields a list sorted by Prioritization Score
descending; ranks are exactly `1, 2, …, n` in output order; ties keep the
input's relative order (for every score value, the sub-list at that score
equals the input's sub-list at that score, up to the freshly assigned rank
field); and re-ranking the output reproduces it exactly. -/
theorem C7_theorem (l : List SmellMetrics) :
    (rank_smells l).Pairwise psGe ∧
    (rank_smells l).map (fun e => e.data_rank) =
      (List.range l.length).map (fun i => some (i + 1)) ∧
    (∀ q : ℝ,
      ((rank_smells l).filter (fun e => decide (e.prioritization_score = q))).map clearRank =
        (l.filter (fun e => decide (e.prioritization_score = q))).map clearRank) ∧
    rank_smells (rank_smells l) = rank_smells l := by
  refine ⟨?_, ?_, ?_, ?_⟩
  · exact assignRanks_pairwise 1 _ (sortByPSDesc_pairwise l)
  · rw [rank_smells, assignRanks_map_rank, (sortByPSDesc_perm l).length_eq]
    have harith : ∀ j : ℕ, 1 + j = j + 1 := by omega
    simp [harith]
  · intro q
    rw [rank_smells, assignRanks_filter_clear, sortByPSDesc_filter]
  · show assignRanks 1 (sortByPSDesc (assignRanks 1 (sortByPSDesc l))) = _
    rw [sortByPSDesc_eq_self _ (assignRanks_pairwise 1 _ (sortByPSDesc_pairwise l)),
      assignRanks_assignRanks]
    rfl

/- =====================================================
   C6 — PS is the unweighted mean of CP and FP
   ===================================================== -/

/-- C6: for every smell type's record produced in a run, the reported
`cp_score` and `fp_score` are the 4-decimal roundings of the spec's
Change-Proneness and Fault-Proneness sums of presence correlations, and the
reported Prioritization Score is the 4-decimal rounding of their simple
unweighted mean `(CP + FP) / 2`. -/
theorem C6_theorem (instances : List SmellInst)
    (vectors : List (List Char × CombinedVector)) (all_test_files : List (List Char)) :
    ∀ e ∈ calculate_spearman_metrics instances vectors all_test_files,
      e.2.cp_score = pyRound 4 (changeProneness instances vectors all_test_files e.1) ∧
      e.2.fp_score = pyRound 4 (faultProneness instances vectors all_test_files e.1) ∧
      e.2.prioritization_score =
        pyRound 4 ((changeProneness instances vectors all_test_files e.1 +
          faultProneness instances vectors all_test_files e.1) / 2) := by
  intro e he
  rcases List.mem_map.mp he with ⟨t, ht, rfl⟩
  exact ⟨rfl, rfl, rfl⟩

/-- C6 witness: a single Empty Test instance over a one-file population —
the recorded scores are exactly the rounded CP, FP and mean. -/
theorem C6_witness :
    ((str ("Empty Test"),
        mkSmellMetrics [⟨str ("Empty Test"), str ("test_a.py"), 1⟩] []
          [str ("test_a.py")] (str ("Empty Test"))) : List Char × SmellMetrics).2.cp_score =
      pyRound 4 (changeProneness [⟨str ("Empty Test"), str ("test_a.py"), 1⟩] []
        [str ("test_a.py")] (str ("Empty Test"))) ∧
    ((str ("Empty Test"),
        mkSmellMetrics [⟨str ("Empty Test"), str ("test_a.py"), 1⟩] []
          [str ("test_a.py")] (str ("Empty Test"))) : List Char × SmellMetrics).2.fp_score =
      pyRound 4 (faultProneness [⟨str ("Empty Test"), str ("test_a.py"), 1⟩] []
        [str ("test_a.py")] (str ("Empty Test"))) ∧
    ((str ("Empty Test"),
        mkSmellMetrics [⟨str ("Empty Test"), str ("test_a.py"), 1⟩] []
          [str ("test_a.py")] (str ("Empty Test"))) : List Char × SmellMetrics).2.prioritization_score =
      pyRound 4 ((changeProneness [⟨str ("Empty Test"), str ("test_a.py"), 1⟩] []
          [str ("test_a.py")] (str ("Empty Test")) +
        faultProneness [⟨str ("Empty Test"), str ("test_a.py"), 1⟩] []
          [str ("test_a.py")] (str ("Empty Test"))) / 2) :=
  C6_theorem [⟨str ("Empty Test"), str ("test_a.py"), 1⟩] [] [str ("test_a.py")] _
    (List.mem_singleton.mpr rfl)

/- =====================================================
   C9 — Empty Test short-circuits everything else
   ===================================================== -/

/-- C9: a test function whose body is empty or a single docstring yields
exactly one Empty Test smell and nothing else — the Empty Test branches
return before every other function-scope check — and a file containing only
such a test yields exactly that one instance. -/
theorem C9_theorem (name : List Char) (funcLine : ℕ) (body : List PyStmt)
    (hname : (str ("test_")).isPrefixOf name = true)
    (hbody : body = [] ∨ ∃ l s2, body = [PyStmt.exprS l (PyExpr.constE (PyVal.strV s2))]) :
    analyze_function_smells name funcLine body =
      [{ type := str ("Empty Test"), line := funcLine }] ∧
    detect_all_smells ⟨[], [⟨name, funcLine, body⟩]⟩ =
      [{ type := str ("Empty Test"), line := funcLine }] := by
  have h1 : analyze_function_smells name funcLine body =
      [{ type := str ("Empty Test"), line := funcLine }] := by
    rcases hbody with rfl | ⟨l, s2, rfl⟩
    · simp [analyze_function_smells, hname]
    · simp [analyze_function_smells, hname, isPassOnly, isDocstringOnly]
  exact ⟨h1, by simp [detect_all_smells, h1]⟩

/-- C9 witness: a file whose only test holds a lone docstring. -/
theorem C9_witness :
    analyze_function_smells (str ("test_a")) 1
        [PyStmt.exprS 2 (PyExpr.constE (PyVal.strV (str ("doc"))))] =
      [{ type := str ("Empty Test"), line := 1 }] ∧
    detect_all_smells
        ⟨[], [⟨str ("test_a"), 1, [PyStmt.exprS 2 (PyExpr.constE (PyVal.strV (str ("doc"))))]⟩]⟩ =
      [{ type := str ("Empty Test"), line := 1 }] :=
  C9_theorem _ _ _ (by decide) (Or.inr ⟨2, str ("doc"), rfl⟩)

/- =====================================================
   C8 — Duplicate Assert and the breadth-first walk order
   ===================================================== -/

theorem mem_exprChildren_isExpr (e : PyExpr) :
    ∀ n ∈ exprChildren e, isExprNode n = true := by
  cases e <;> intro n hn <;> simp [exprChildren] at hn
  · rcases hn with rfl; rfl
  · rcases hn with rfl | ⟨x, hx, rfl⟩ <;> rfl
  · rcases hn with rfl | ⟨x, hx, rfl⟩ <;> rfl

theorem assertInfo_expr_none (n : Node) (h : isExprNode n = true) :
    assertInfo n = none := by
  cases n with
  | expr e => rfl
  | stmt s => simp [isExprNode] at h
  | handler h2 => simp [isExprNode] at h

theorem bfsAux_expr_only : ∀ (k : ℕ) (q : List Node),
    (∀ n ∈ q, isExprNode n = true) → ∀ m ∈ bfsAux k q, isExprNode m = true := by
  intro k
  induction k with
  | zero => intro q hq m hm; simp [bfsAux] at hm
  | succ k ih =>
      intro q hq m hm
      cases q with
      | nil => simp [bfsAux] at hm
      | cons n q2 =>
          simp only [bfsAux, List.mem_cons] at hm
          rcases hm with rfl | hm
          · exact hq _ (List.mem_cons_self _ q2)
          · refine ih (q2 ++ nodeChildren n) ?_ m hm
            intro n2 hn2
            rcases List.mem_append.mp hn2 with h2 | h2
            · exact hq n2 (List.mem_cons_of_mem n h2)
            · have hn : isExprNode n = true := hq n (List.mem_cons_self n q2)
              cases n with
              | expr e => exact mem_exprChildren_isExpr e n2 h2
              | stmt s => simp [isExprNode] at hn
              | handler h3 => simp [isExprNode] at hn

theorem flat_children_expr (s : PyStmt) (h : isFlatStmt s = true) :
    ∀ n ∈ stmtChildren s, isExprNode n = true := by
  cases s with
  | assertS l t m =>
      intro n hn
      cases m with
      | none => simp [stmtChildren] at hn; rcases hn with rfl; rfl
      | some e =>
          simp [stmtChildren] at hn
          rcases hn with rfl | rfl <;> rfl
  | assignS l v => intro n hn; simp [stmtChildren] at hn; rcases hn with rfl; rfl
  | exprS l v => intro n hn; simp [stmtChildren] at hn; rcases hn with rfl; rfl
  | passS l => intro n hn; simp [stmtChildren] at hn
  | _ => simp [isFlatStmt] at h

theorem bfsAux_flat_asserts : ∀ (k : ℕ) (ss : List PyStmt) (es : List Node),
    sizeQ (ss.map Node.stmt ++ es) ≤ k →
    (∀ s ∈ ss, isFlatStmt s = true) →
    (∀ n ∈ es, isExprNode n = true) →
    (bfsAux k (ss.map Node.stmt ++ es)).filterMap assertInfo =
      ss.filterMap stmtAssertInfo := by
  intro k
  induction k with
  | zero =>
      intro ss es hsz hflat hes
      cases ss with
      | nil =>
          cases es with
          | nil => rfl
          | cons n q =>
              exfalso
              have := sizeN_pos n
              simp [sizeQ] at hsz
              omega
      | cons s ss2 =>
          exfalso
          have := sizeN_pos (Node.stmt s)
          simp [sizeQ, sizeQ_append] at hsz
          omega
  | succ k ih =>
      intro ss es hsz hflat hes
      cases ss with
      | nil =>
          simp only [List.map_nil, List.nil_append, List.filterMap_nil]
          rw [List.filterMap_eq_nil]
          intro n hn
          exact assertInfo_expr_none n (bfsAux_expr_only (k + 1) es hes n hn)
      | cons s ss2 =>
          have hqeq : (s :: ss2).map Node.stmt ++ es =
              Node.stmt s :: (ss2.map Node.stmt ++ es) := by simp
          rw [hqeq]
          show (Node.stmt s :: bfsAux k ((ss2.map Node.stmt ++ es) ++ nodeChildren (Node.stmt s))).filterMap assertInfo = _
          have hq2 : (ss2.map Node.stmt ++ es) ++ nodeChildren (Node.stmt s) =
              ss2.map Node.stmt ++ (es ++ stmtChildren s) := by
            simp [nodeChildren]
          rw [hq2]
          have hsz2 : sizeQ (ss2.map Node.stmt ++ (es ++ stmtChildren s)) ≤ k := by
            have h1 := sizeQ_children_lt (Node.stmt s)
            rw [hqeq] at hsz
            simp only [sizeQ, sizeQ_append] at hsz ⊢
            simp only [nodeChildren] at h1
            have h2 : sizeN (Node.stmt s) = sizeS s := rfl
            omega
          have hrest := ih ss2 (es ++ stmtChildren s) hsz2
            (fun s2 hs2 => hflat s2 (List.mem_cons_of_mem s hs2))
            (fun n hn => by
              rcases List.mem_append.mp hn with h2 | h2
              · exact hes n h2
              · exact flat_children_expr s (hflat s (List.mem_cons_self s ss2)) n h2)
          rw [List.filterMap_cons]
          have hai : assertInfo (Node.stmt s) = stmtAssertInfo s := rfl
          cases hsi : stmtAssertInfo s with
          | none => simp [hai, hsi, hrest, List.filterMap_cons]
          | some a => simp [hai, hsi, hrest, List.filterMap_cons]

/-- On a flat body the breadth-first walk meets the assertions exactly in
body order. -/
theorem walk_asserts_flat (body : List PyStmt)
    (hflat : ∀ s ∈ body, isFlatStmt s = true) :
    (bfs (body.map Node.stmt)).filterMap assertInfo =
      body.filterMap stmtAssertInfo := by
  have h := bfsAux_flat_asserts (sizeQ (body.map Node.stmt)) body []
    (by simp) hflat (by simp)
  simpa [bfs] using h

theorem daFold_type : ∀ (as : List (ℕ × PyExpr × Option PyExpr))
    (seen : List (List Char × ℕ)), ∀ s ∈ daFold seen as,
      s.type = str ("Duplicate Assert") := by
  intro as
  induction as with
  | nil => intro seen s hs; simp [daFold] at hs
  | cons a rest ih =>
      intro seen s hs
      simp only [daFold] at hs
      cases hfind : (seen.find? (fun p => p.1 = unparseE a.2.1)).map (·.2) with
      | none =>
          rw [hfind] at hs
          exact ih _ s hs
      | some l0 =>
          rw [hfind] at hs
          rcases List.mem_cons.mp hs with rfl | hs
          · rfl
          · exact ih _ s hs

theorem daFold_no_dup : ∀ (as : List (ℕ × PyExpr × Option PyExpr))
    (seen : List (List Char × ℕ)),
    (∀ a ∈ as, seen.find? (fun p => p.1 = unparseE a.2.1) = none) →
    as.Pairwise (fun x y => unparseE x.2.1 ≠ unparseE y.2.1) →
    daFold seen as = [] := by
  intro as
  induction as with
  | nil => intro seen _ _; rfl
  | cons a rest ih =>
      intro seen hseen hpw
      rcases List.pairwise_cons.mp hpw with ⟨ha, hrest⟩
      have hfind := hseen a (List.mem_cons_self a rest)
      simp only [daFold, hfind, Option.map_none']
      refine ih _ ?_ hrest
      intro b hb
      rw [List.find?_append, hseen b (List.mem_cons_of_mem a hb)]
      have hne : ¬ ((unparseE a.2.1) = unparseE b.2.1) := ha b hb
      simp [List.find?, hne]

theorem daFold_ref : ∀ (as : List (ℕ × PyExpr × Option PyExpr))
    (seen : List (List Char × ℕ)),
    (∀ p ∈ seen, ∀ b ∈ as, p.2 < b.1) →
    as.Pairwise (fun x y => x.1 < y.1) →
    ∀ s ∈ daFold seen as, ∃ r, s.ref = some r ∧ r < s.line := by
  intro as
  induction as with
  | nil => intro seen _ _ s hs; simp [daFold] at hs
  | cons a rest ih =>
      intro seen hseen hpw s hs
      rcases List.pairwise_cons.mp hpw with ⟨ha, hrest⟩
      simp only [daFold] at hs
      cases hfind : seen.find? (fun p => p.1 = unparseE a.2.1) with
      | some p =>
          rw [hfind] at hs
          simp only [Option.map_some'] at hs
          rcases List.mem_cons.mp hs with rfl | hs
          · exact ⟨p.2, rfl, hseen p (List.mem_of_find?_eq_some hfind) a
              (List.mem_cons_self a rest)⟩
          · exact ih seen (fun p2 hp2 b hb => hseen p2 hp2 b (List.mem_cons_of_mem a hb))
              hrest s hs
      | none =>
          rw [hfind] at hs
          simp only [Option.map_none'] at hs
          refine ih _ ?_ hrest s hs
          intro p hp b hb
          rcases List.mem_append.mp hp with h2 | h2
          · exact hseen p h2 b (List.mem_cons_of_mem a hb)
          · simp at h2
            rw [h2]
            exact ha b hb

theorem arSmells_type (fl : ℕ) (as : List (ℕ × PyExpr × Option PyExpr)) :
    ∀ s ∈ arSmells fl as, s.type = str ("Assertion Roulette") := by
  intro s hs
  unfold arSmells at hs
  dsimp only at hs
  split at hs
  · split at hs
    · rcases List.mem_singleton.mp hs with rfl; rfl
    · simp at hs
  · simp at hs

theorem raSmells_type (as : List (ℕ × PyExpr × Option PyExpr)) :
    ∀ s ∈ raSmells as, s.type = str ("Redundant Assertion") := by
  intro s hs
  rcases List.mem_filterMap.mp hs with ⟨a, _, hsome⟩
  split at hsome
  · cases hsome; rfl
  · cases hsome

theorem saSmells_type (as : List (ℕ × PyExpr × Option PyExpr)) :
    ∀ s ∈ saSmells as, s.type = str ("Suboptimal Assert") := by
  intro s hs
  rcases List.mem_filterMap.mp hs with ⟨a, _, hsome⟩
  split at hsome
  · split at hsome
    · cases hsome; rfl
    · cases hsome
  · cases hsome

theorem mntSmells_type (as : List (ℕ × PyExpr × Option PyExpr)) :
    ∀ s ∈ mntSmells as, s.type = str ("Magic Number Test") := by
  intro s hs
  rcases List.mem_filterMap.mp hs with ⟨a, _, hsome⟩
  split at hsome
  · split at hsome
    · cases hsome; rfl
    · cases hsome
  · cases hsome

theorem osSmells_type (fl : ℕ) (nodes : List Node) (as : List (ℕ × PyExpr × Option PyExpr)) :
    ∀ s ∈ osSmells fl nodes as, s.type = str ("Obscure In-Line Setup") := by
  intro s hs
  unfold osSmells at hs
  dsimp only at hs
  split at hs
  · rcases List.mem_singleton.mp hs with rfl; rfl
  · simp at hs

theorem ctlSmells_type (nodes : List Node) :
    ∀ s ∈ ctlSmells nodes, s.type = str ("Conditional Test Logic") := by
  intro s hs
  unfold ctlSmells at hs
  rcases List.mem_append.mp hs with h2 | h2 <;>
    · split at h2
      · rcases List.mem_singleton.mp h2 with rfl; rfl
      · simp at h2

theorem ehSmells_type (nodes : List Node) :
    ∀ s ∈ ehSmells nodes, s.type = str ("Exception Handling") := by
  intro s hs
  rcases List.mem_filterMap.mp hs with ⟨n, _, hsome⟩
  split at hsome
  · split at hsome
    · cases hsome; rfl
    · cases hsome
  · cases hsome

theorem stSmells_type (nodes : List Node) :
    ∀ s ∈ stSmells nodes, s.type = str ("Sleepy Test") := by
  intro s hs
  unfold stSmells at hs
  split at hs
  · rcases List.mem_singleton.mp hs with rfl; rfl
  · simp at hs

theorem rpSmells_type (nodes : List Node) :
    ∀ s ∈ rpSmells nodes, s.type = str ("Redundant Print") := by
  intro s hs
  unfold rpSmells at hs
  split at hs
  · simp at hs
  · rcases List.mem_singleton.mp hs with rfl; rfl

theorem filter_DA_of_type (l : List Smell) (t : List Char)
    (ht : ∀ s ∈ l, s.type = t) (hne : t ≠ str ("Duplicate Assert")) :
    l.filter (fun s => decide (s.type = str ("Duplicate Assert"))) = [] := by
  rw [List.filter_eq_nil]
  intro a ha
  simp [ht a ha, hne]

/-- In the non-empty-body branch, the Duplicate Assert instances of the
function-scope battery are exactly the `daFold` output over the walked
assertions. -/
theorem analyze_DA_eq (name : List Char) (fl : ℕ) (body : List PyStmt)
    (h1 : (str ("test_")).isPrefixOf name = true)
    (h2 : (body.isEmpty || isPassOnly body) = false)
    (h3 : isDocstringOnly body = false) :
    (analyze_function_smells name fl body).filter
        (fun s => decide (s.type = str ("Duplicate Assert"))) =
      daFold [] ((bfs (body.map Node.stmt)).filterMap assertInfo) := by
  unfold analyze_function_smells
  rw [h1]
  simp only [Bool.not_true, Bool.false_eq_true, if_false, h2, h3]
  have hDA : ∀ (seen : List (List Char × ℕ)) (as : List (ℕ × PyExpr × Option PyExpr)),
      (daFold seen as).filter (fun s => decide (s.type = str ("Duplicate Assert"))) =
        daFold seen as := by
    intro seen as
    rw [List.filter_eq_self]
    intro a ha
    simp [daFold_type as seen a ha]
  simp only [List.filter_append]
  rw [filter_DA_of_type _ _ (arSmells_type _ _) (by decide),
    filter_DA_of_type _ _ (raSmells_type _) (by decide),
    filter_DA_of_type _ _ (saSmells_type _) (by decide),
    filter_DA_of_type _ _ (mntSmells_type _) (by decide),
    filter_DA_of_type _ _ (osSmells_type _ _ _) (by decide),
    filter_DA_of_type _ _ (ctlSmells_type _) (by decide),
    filter_DA_of_type _ _ (ehSmells_type _) (by decide),
    filter_DA_of_type _ _ (stSmells_type _) (by decide),
    filter_DA_of_type _ _ (rpSmells_type _) (by decide),
    hDA]
  simp

/-- C8 counterexample: in
`def test_x(): if c: assert a == b (line 3); assert a == b (line 4)`
the breadth-first walk visits the line-4 assertion before the nested line-3
one, so the Duplicate Assert instance is reported at line 3 and its message
references line 4 — a *later* line than the reported one, contradicting the
claim that the message always references an earlier line. -/
theorem C8_counterexample :
    (Smell.mk (str ("Duplicate Assert")) 3 (some 4) none) ∈
      analyze_function_smells (str ("test_x")) 1
        [PyStmt.ifS 2 (PyExpr.nameE (str ("c")))
          [PyStmt.assertS 3
            (PyExpr.compareE (PyExpr.nameE (str ("a"))) [CmpOp.eq] [PyExpr.nameE (str ("b"))])
            none] [],
         PyStmt.assertS 4
           (PyExpr.compareE (PyExpr.nameE (str ("a"))) [CmpOp.eq] [PyExpr.nameE (str ("b"))])
           none] ∧
    ¬ (4 < 3) := by
  constructor
  · decide
  · decide

/-- C8 amended: Duplicate Assert never fires when all assertion texts are
distinct (in particular never on a sole first occurrence), and it fires only
against a previously *walked* occurrence; since `ast.walk` is breadth-first,
"previous" means walk order, which coincides with source order only for flat
bodies: for every test function whose body has no nested block statements and
whose assertion lines increase in source order, every emitted Duplicate
Assert instance references a line strictly earlier than the reported line.
(With nesting, the referenced line can be later — see the counterexample.) -/
theorem C8_amended_theorem (name : List Char) (funcLine : ℕ) (body : List PyStmt)
    (hflat : ∀ s ∈ body, isFlatStmt s = true)
    (hinc : (body.filterMap stmtAssertInfo).Pairwise (fun x y => x.1 < y.1)) :
    (∀ s ∈ (analyze_function_smells name funcLine body).filter
        (fun s => decide (s.type = str ("Duplicate Assert"))),
      ∃ r, s.ref = some r ∧ r < s.line) ∧
    ((body.filterMap stmtAssertInfo).Pairwise
        (fun x y => unparseE x.2.1 ≠ unparseE y.2.1) →
      (analyze_function_smells name funcLine body).filter
        (fun s => decide (s.type = str ("Duplicate Assert"))) = []) := by
  by_cases h1 : (str ("test_")).isPrefixOf name = true
  · by_cases h2 : (body.isEmpty || isPassOnly body) = true
    · have hout : analyze_function_smells name funcLine body =
          [{ type := str ("Empty Test"), line := funcLine }] := by
        unfold analyze_function_smells
        rw [h1, h2]
        simp
      rw [hout, filter_DA_of_type _ (str ("Empty Test"))
        (by intro s2 hs2; rcases List.mem_singleton.mp hs2 with rfl; rfl) (by decide)]
      exact ⟨by intro s hs; simp at hs, by intro _; rfl⟩
    · by_cases h3 : isDocstringOnly body = true
      · have hout : analyze_function_smells name funcLine body =
            [{ type := str ("Empty Test"), line := funcLine }] := by
          unfold analyze_function_smells
          rw [h1]
          simp only [Bool.not_true, Bool.false_eq_true, if_false,
            eq_false_of_ne_true h2, h3, if_true]
        rw [hout, filter_DA_of_type _ (str ("Empty Test"))
          (by intro s2 hs2; rcases List.mem_singleton.mp hs2 with rfl; rfl) (by decide)]
        exact ⟨by intro s hs; simp at hs, by intro _; rfl⟩
      · have hda := analyze_DA_eq name funcLine body h1 (eq_false_of_ne_true h2)
          (eq_false_of_ne_true h3)
        rw [hda, walk_asserts_flat body hflat]
        constructor
        · exact daFold_ref _ [] (by intro p hp; simp at hp) hinc
        · intro hnodup
          exact daFold_no_dup _ [] (by intro a _; rfl) hnodup
  · have hout : analyze_function_smells name funcLine body = [] := by
      unfold analyze_function_smells
      rw [eq_false_of_ne_true h1]
      simp
    rw [hout]
    exact ⟨by intro s hs; simp at hs, by intro _; simp⟩

/-- C8 witness: a flat body with the same assertion text on lines 2 and 3 —
the Duplicate Assert instance references line 2, earlier than the reported
line 3; and for a flat body with distinct texts nothing fires. -/
theorem C8_witness :
    (∀ s ∈ (analyze_function_smells (str ("test_y")) 1
        [PyStmt.assertS 2
          (PyExpr.compareE (PyExpr.nameE (str ("a"))) [CmpOp.eq] [PyExpr.nameE (str ("b"))])
          none,
         PyStmt.assertS 3
          (PyExpr.compareE (PyExpr.nameE (str ("a"))) [CmpOp.eq] [PyExpr.nameE (str ("b"))])
          none]).filter
        (fun s => decide (s.type = str ("Duplicate Assert"))),
      ∃ r, s.ref = some r ∧ r < s.line) ∧
    (([PyStmt.assertS 2
          (PyExpr.compareE (PyExpr.nameE (str ("a"))) [CmpOp.eq] [PyExpr.nameE (str ("b"))])
          none,
       PyStmt.assertS 3
          (PyExpr.compareE (PyExpr.nameE (str ("a"))) [CmpOp.eq] [PyExpr.nameE (str ("b"))])
          none].filterMap stmtAssertInfo).Pairwise
        (fun x y => unparseE x.2.1 ≠ unparseE y.2.1) →
      (analyze_function_smells (str ("test_y")) 1
        [PyStmt.assertS 2
          (PyExpr.compareE (PyExpr.nameE (str ("a"))) [CmpOp.eq] [PyExpr.nameE (str ("b"))])
          none,
         PyStmt.assertS 3
          (PyExpr.compareE (PyExpr.nameE (str ("a"))) [CmpOp.eq] [PyExpr.nameE (str ("b"))])
          none]).filter
        (fun s => decide (s.type = str ("Duplicate Assert"))) = []) :=
  C8_amended_theorem (str ("test_y")) 1 _ (by decide) (by decide)

/- =====================================================
   C5 — the Spearman step: degenerate guards and the ±1 bound
   ===================================================== -/

theorem varSum_nonneg (a : List ℚ) : 0 ≤ varSum a :=
  Finset.sum_nonneg (fun i _ => sq_nonneg (cdev a i))

/-- Cauchy–Schwarz for the deviation sums. -/
theorem covSum_sq_le (a b : List ℚ) (hlen : b.length = a.length) :
    (covSum a b) ^ 2 ≤ varSum a * varSum b := by
  have h := Finset.sum_mul_sq_le_sq_mul_sq (Finset.range a.length)
    (fun i => cdev a i) (fun i => cdev b i)
  unfold covSum varSum
  rw [hlen]
  exact h

theorem varSum_pos_of_mem_ne {l : List ℚ} {x y : ℚ} (hx : x ∈ l) (hy : y ∈ l)
    (hne : x ≠ y) : 0 < varSum l := by
  rcases lt_or_eq_of_le (varSum_nonneg l) with h | h
  · exact h
  exfalso
  have hall : ∀ i ∈ Finset.range l.length, (cdev l i) ^ 2 = 0 := by
    rw [← Finset.sum_eq_zero_iff_of_nonneg (fun i _ => sq_nonneg (cdev l i))]
    exact h.symm
  have hmean : ∀ z ∈ l, z = lmean l := by
    intro z hz
    rcases List.mem_iff_getElem.mp hz with ⟨i, hi, hzi⟩
    have h0 : (cdev l i) ^ 2 = 0 := hall i (Finset.mem_range.mpr hi)
    have h1 : cdev l i = 0 := by
      exact pow_eq_zero_iff (n := 2) (by omega) |>.mp h0
    unfold cdev at h1
    rw [List.getD_eq_getElem l 0 hi, hzi] at h1
    linarith
  exact hne ((hmean x hx).trans (hmean y hy).symm)

theorem countP_lt_add_eq_le {v w : ℚ} (h : v < w) (l : List ℚ) :
    l.countP (fun z => decide (z < v)) + l.countP (fun z => decide (z = v)) ≤
      l.countP (fun z => decide (z < w)) := by
  induction l with
  | nil => simp
  | cons a t ih =>
      simp only [List.countP_cons]
      by_cases h1 : a < v
      · have h2 : ¬ a = v := ne_of_lt h1
        have h3 : a < w := lt_trans h1 h
        simp [h1, h2, h3]
        omega
      · by_cases h2 : a = v
        · subst h2
          have h3 : a < w := h
          simp [h1, h3]
          omega
        · by_cases h3 : a < w <;> simp [h1, h2, h3] <;> omega

theorem countP_eq_pos {v : ℚ} {l : List ℚ} (hv : v ∈ l) :
    0 < l.countP (fun z => decide (z = v)) :=
  List.countP_pos_iff.mpr ⟨v, hv, by simp⟩

theorem rankOf_lt_rankOf {l : List ℚ} {v w : ℚ} (hv : v ∈ l) (hw : w ∈ l)
    (hvw : v < w) : rankOf l v < rankOf l w := by
  have hab := countP_lt_add_eq_le hvw l
  have hb := countP_eq_pos hv
  have hd := countP_eq_pos hw
  unfold rankOf
  have hb2 : (1 : ℚ) ≤ (l.countP (fun z => decide (z = v)) : ℚ) := by exact_mod_cast hb
  have hd2 : (1 : ℚ) ≤ (l.countP (fun z => decide (z = w)) : ℚ) := by exact_mod_cast hd
  have hab2 : (l.countP (fun z => decide (z < v)) : ℚ) +
      (l.countP (fun z => decide (z = v)) : ℚ) ≤
      (l.countP (fun z => decide (z < w)) : ℚ) := by exact_mod_cast hab
  linarith

theorem exists_ne_of_not_constant (l : List ℚ) (h : isConstantQ l = false) :
    ∃ x ∈ l, ∃ y ∈ l, x ≠ y := by
  cases l with
  | nil => simp [isConstantQ] at h
  | cons a t =>
      unfold isConstantQ at h
      rcases List.all_eq_false.mp h with ⟨y, hy, hne⟩
      simp at hne
      exact ⟨a, List.mem_cons_self a t, y, List.mem_cons_of_mem a hy, fun he => hne (he ▸ rfl)⟩

theorem varSum_ranks_pos (l : List ℚ) (h : isConstantQ l = false) :
    0 < varSum (ranks l) := by
  rcases exists_ne_of_not_constant l h with ⟨x, hx, y, hy, hne⟩
  rcases lt_or_gt_of_ne hne with hlt | hgt
  · exact varSum_pos_of_mem_ne (List.mem_map_of_mem (rankOf l) hx)
      (List.mem_map_of_mem (rankOf l) hy) (ne_of_lt (rankOf_lt_rankOf hx hy hlt))
  · exact varSum_pos_of_mem_ne (List.mem_map_of_mem (rankOf l) hy)
      (List.mem_map_of_mem (rankOf l) hx) (ne_of_lt (rankOf_lt_rankOf hy hx hgt))

theorem pearson_bounds (a b : List ℚ) (hlen : b.length = a.length)
    (ha : 0 < varSum a) (hb : 0 < varSum b) :
    -1 ≤ pearson a b ∧ pearson a b ≤ 1 := by
  have hD : (0 : ℝ) < ((varSum a : ℚ) : ℝ) * ((varSum b : ℚ) : ℝ) := by
    apply mul_pos <;> exact_mod_cast by assumption
  have hc2 : (((covSum a b : ℚ) : ℝ)) ^ 2 ≤ ((varSum a : ℚ) : ℝ) * ((varSum b : ℚ) : ℝ) := by
    have := covSum_sq_le a b hlen
    push_cast
    exact_mod_cast this
  have habs : |((covSum a b : ℚ) : ℝ)| ≤
      Real.sqrt (((varSum a : ℚ) : ℝ) * ((varSum b : ℚ) : ℝ)) := by
    calc |((covSum a b : ℚ) : ℝ)| =
        Real.sqrt ((((covSum a b : ℚ) : ℝ)) ^ 2) := (Real.sqrt_sq_eq_abs _).symm
      _ ≤ Real.sqrt (((varSum a : ℚ) : ℝ) * ((varSum b : ℚ) : ℝ)) := Real.sqrt_le_sqrt hc2
  have hsq : 0 < Real.sqrt (((varSum a : ℚ) : ℝ) * ((varSum b : ℚ) : ℝ)) :=
    Real.sqrt_pos.mpr hD
  have hle : |pearson a b| ≤ 1 := by
    unfold pearson
    rw [abs_div, abs_of_nonneg (Real.sqrt_nonneg _)]
    exact (div_le_one hsq).mpr habs
  exact abs_le.mp hle

/-- C5: the Spearman step returns exactly `(0.0, 1.0)` whenever either input
vector is constant or the population has fewer than 3 points (never raising),
and otherwise — equal-length, non-constant inputs with at least 3 points —
the returned coefficient lies in `[-1, 1]`. -/
theorem C5_theorem (x y : List ℚ) :
    ((isConstantQ x = true ∨ isConstantQ y = true ∨ x.length < 3) →
      spearman x y = (0, 1)) ∧
    (x.length = y.length → isConstantQ x = false → isConstantQ y = false →
      3 ≤ x.length →
      -1 ≤ (spearman x y).1 ∧ (spearman x y).1 ≤ 1) := by
  constructor
  · intro hdeg
    by_cases hc : (isConstantQ x || isConstantQ y) = true
    · simp [spearman, hc]
    · have hlen : x.length < 3 := by
        rcases hdeg with h | h | h
        · exact absurd (by simp [h]) hc
        · exact absurd (by simp [h]) hc
        · exact h
      simp [spearman, hc, hlen]
  · intro hlen hcx hcy hn
    have hc : (isConstantQ x || isConstantQ y) = false := by simp [hcx, hcy]
    have hn2 : ¬ x.length < 3 := by omega
    have hval : spearman x y = (pearson (ranks x) (ranks y), spearman_p x y) := by
      simp [spearman, hc, hn2]
    rw [hval]
    exact pearson_bounds (ranks x) (ranks y)
      (by simp [ranks, hlen]) (varSum_ranks_pos x hcx) (varSum_ranks_pos y hcy)

/-- C5 witness: the constant presence vector `[0, 0]` gives exactly
`(0.0, 1.0)`; the non-degenerate pair `[0, 1, 0]`, `[1, 2, 3]` has its
coefficient inside `[-1, 1]`. -/
theorem C5_witness :
    spearman [0, 0] [1, 2] = (0, 1) ∧
    (-1 ≤ (spearman [0, 1, 0] [1, 2, 3]).1 ∧ (spearman [0, 1, 0] [1, 2, 3]).1 ≤ 1) :=
  ⟨(C5_theorem [0, 0] [1, 2]).1 (Or.inl (by decide)),
   (C5_theorem [0, 1, 0] [1, 2, 3]).2 (by decide) (by decide) (by decide) (by decide)⟩

end TestSmellRank
